import Mathlib

/-!
# FlatGeobuf reader of MapServer (`src/flatgeobuf/flatgeobuf_c.cpp`)

A shallow embedding of the decode context and of the operations
`flatgeobuf_ensure_buf`, `flatgeobuf_decode_properties`,
`flatgeobuf_decode_feature`, `flatgeobuf_check_magicbytes`,
`flatgeobuf_decode_header`, `flatgeobuf_index_skip` and
`flatgeobuf_index_search`.

Conventions of the embedding.

* A byte is a `Nat` below 256; a region of memory is a `List Nat`.  A pointer
  into the scratch buffer is the list of bytes from that position onward.
* `uint32_t` arithmetic is written with an explicit `% 4294967296`,
  `uint16_t` with `% 65536`.
* `ctx->offset` and `ctx->feature_offset` are file offsets declared in
  `flatgeobuf_c.h` (not part of the sources at hand); they are kept as
  unbounded naturals.
* Recursion and loops that the C code does not bound are given a `fuel`
  argument; `none` means that the fuel was used up.
* Code from `feature_generated.h`, `header_generated.h`, `geometryreader.h`
  and `packedrtree.h` is not part of the sources at hand; it enters as the
  fields of `Externals`.  The search of the packed index is modelled from the
  description of its traversal, over a level geometry that is a parameter
  (`PackedRTree`).
* A read or a write that leaves the block of memory it addresses has no
  defined result in C.  The decoders return `Defined.fault` where a read
  from the file exceeds the scratch buffer and where the copy of a string
  value exceeds the memory behind the data pointer, and `Defined.ok` with
  their result otherwise.
-/

namespace FlatGeobuf

/-! ## Data model -/

/-- Case labels of the `switch (type)` in `flatgeobuf_decode_properties`.
`other` stands for every type code the switch has no case for. -/
inductive ColumnType where
  | bool | byte | ubyte | short | ushort | int | uint | long | ulong
  | float | double | datetime | string | other
  deriving DecidableEq, Repr

/-- Entry of `ctx->columns`.  `name` is the `const char *` obtained from
`column->name()->c_str()`: a position inside the scratch buffer. -/
structure flatgeobuf_column where
  name : Nat
  type : ColumnType
  deriving DecidableEq, Repr

/-- One `char *` slot of `shape->values`. -/
inductive Value where
  /-- Slot of the freshly `malloc`ed array that was never assigned: an
  indeterminate pointer. -/
  | uninit
  /-- Null pointer.  No statement of the decoder assigns it. -/
  | null
  /-- Pointer to a NUL-terminated string holding these bytes. -/
  | str (bytes : List Nat)
  deriving DecidableEq, Repr

instance : DecidableEq (Option (List Value)) := inferInstance

/-- What a run of the code gives.  `fault` stands for a run that reads or
writes outside of the block it addresses: C defines no behaviour for it, and
the run has no result. -/
inductive Defined (α : Type) where
  | fault
  | ok (result : α)
  deriving Repr

instance {α : Type} [DecidableEq α] : DecidableEq (Defined α)
  | Defined.fault, Defined.fault => isTrue rfl
  | Defined.fault, Defined.ok _ => isFalse (by simp)
  | Defined.ok _, Defined.fault => isFalse (by simp)
  | Defined.ok a, Defined.ok b =>
    if h : a = b then isTrue (by rw [h]) else isFalse (by simp [h])

/-- The file behind `ctx->file` together with the state of its handle.
`errorAt = some k` is a device that fails at byte `k`: bytes from `k` on
cannot be read, and the short read is not an end-of-file. -/
structure VSILFILE where
  data : List Nat
  pos : Nat
  eof : Bool
  errorAt : Option Nat
  seekable : Bool
  deriving DecidableEq, Repr

/-- Envelope of the header: the four doubles, as their 64-bit patterns. -/
structure Envelope where
  minx : Nat
  miny : Nat
  maxx : Nat
  maxy : Nat
  deriving DecidableEq, Repr

/-- Entry of `ctx->search_result`: the byte offset of a feature and its index,
as `PackedRTree::streamSearch` reports them. -/
structure flatgeobuf_search_item where
  offset : Nat
  index : Nat
  deriving DecidableEq, Repr

/-- The fields of `flatgeobuf_ctx` used by the functions below. -/
structure flatgeobuf_ctx where
  file : VSILFILE
  feature_offset : Nat
  offset : Nat
  buf : Option (List Nat)
  buf_size : Nat
  done : Bool
  geometry_type : Nat
  features_count : Nat
  has_extent : Bool
  xmin : Nat
  ymin : Nat
  xmax : Nat
  ymax : Nat
  bounds : Envelope
  has_z : Bool
  has_m : Bool
  has_t : Bool
  has_tm : Bool
  index_node_size : Nat
  srid : Int
  columns : Option (List flatgeobuf_column)
  columns_len : Nat
  properties : List Nat
  properties_size : Nat
  search_result : Option (List flatgeobuf_search_item)
  search_result_len : Nat
  deriving DecidableEq, Repr

instance : DecidableEq (Option Unit) := inferInstance

/-- The part of `layerObj` read by the decoder: `iteminfo` is the `int` array
of wanted column indices, `numitems` its length. -/
structure layerObj where
  iteminfo : List Int
  deriving DecidableEq, Repr

/-- Field `layer->numitems`. -/
def layerObj.numitems (layer : layerObj) : Nat := layer.iteminfo.length

/-- The part of `shapeObj` written by the decoder.  `G` is the geometry
representation produced by the geometry reader. -/
structure shapeObj (G : Type) where
  geometry : Option G
  numvalues : Nat
  values : Option (List Value)
  deriving DecidableEq

/-- What `GetHeader(ctx->buf)` exposes of the header table.  The name of a
column is the position of its characters inside the buffer. -/
structure Header where
  geometry_type : Nat
  features_count : Nat
  envelope : Option Envelope
  has_z : Bool
  has_m : Bool
  has_t : Bool
  has_tm : Bool
  index_node_size : Nat
  crs : Option Int
  columns : Option (List flatgeobuf_column)
  deriving DecidableEq, Repr

/-- The collaborators of the decoder whose code is not part of the sources at
hand.  The flatbuffers accessors read the scratch buffer they are handed.

* `GetHeader buf` is the header table found in `buf`.
* `GetFeature buf` is the position in `buf` of the feature table (the pointer
  called `feature` in `flatgeobuf_decode_feature`).
* `Feature_geometry buf feature` is `feature->geometry()` evaluated on the
  buffer contents `buf`: the position of the geometry table, if present.
* `Feature_properties buf feature` is `feature->properties()`: the position of
  its data in `buf` and its size, if present.
* `GeometryReader_read ctx geometry shape` is the shape left by
  `GeometryReader(ctx, geometry).read(shape)`.
* `PackedRTree_size numItems nodeSize` is `PackedRTree::size`.
* `realloc_zero_null` is the C library's choice for `realloc(p, 0)`: `true`
  when it frees `p` and returns a null pointer. -/
structure Externals (G : Type) where
  GetHeader : List Nat → Header
  GetFeature : List Nat → Nat
  Feature_geometry : List Nat → Nat → Option Nat
  Feature_properties : List Nat → Nat → Option (Nat × Nat)
  GeometryReader_read : flatgeobuf_ctx → Nat → shapeObj G → shapeObj G
  PackedRTree_size : Nat → Nat → Nat
  realloc_zero_null : Bool

/-- Result of `memset(c, 0, sizeof(ctx))` in `flatgeobuf_init_ctx`, for the
file handle the caller assigns afterwards. -/
def flatgeobuf_init_ctx (file : VSILFILE) : flatgeobuf_ctx :=
  { file := file, feature_offset := 0, offset := 0, buf := none, buf_size := 0,
    done := false, geometry_type := 0, features_count := 0, has_extent := false,
    xmin := 0, ymin := 0, xmax := 0, ymax := 0, bounds := ⟨0, 0, 0, 0⟩,
    has_z := false, has_m := false, has_t := false, has_tm := false,
    index_node_size := 0, srid := 0, columns := none, columns_len := 0,
    properties := [], properties_size := 0,
    search_result := none, search_result_len := 0 }

/-! ## Bytes and integers -/

/-- Byte at position `k` of a region (0 outside of the modelled region). -/
def byteAt (mem : List Nat) (k : Nat) : Nat := mem.getD k 0

/-- Little-endian unsigned integer held in `w` bytes at position `k`:
`memcpy(&x, mem + k, w)`. -/
def readLE (mem : List Nat) (k : Nat) : Nat → Nat
  | 0 => 0
  | w + 1 => byteAt mem k + 256 * readLE mem (k + 1) w

/-- Value of a byte read through an `int8_t *`. -/
def int8_of_byte (b : Nat) : Int := if b < 128 then (b : Int) else (b : Int) - 256

/-- Decimal digits of a natural number, most significant first, as ASCII
codes; `fuel` bounds the number of digits. -/
def decimalDigits : Nat → Nat → List Nat
  | 0, _ => []
  | fuel + 1, n => if n < 10 then [48 + n] else decimalDigits fuel (n / 10) ++ [48 + n % 10]

/-- The text `std::to_string` yields for an integer, as ASCII codes. -/
def std_to_string (v : Int) : List Nat :=
  if v < 0 then 45 :: decimalDigits (v.natAbs + 1) v.natAbs
  else decimalDigits (v.natAbs + 1) v.natAbs

/-- Template `to_string<int8_t>(data)`: the decimal text of the `int8_t` at
`data`.  It is the only instantiation the source uses. -/
def to_string_int8 (mem : List Nat) (k : Nat) : Value :=
  Value.str (std_to_string (int8_of_byte (byteAt mem k)))

/-! ## Attribute value decoder -/

/-- Template `parse_value<T>(data, values, i, offset, found)`, with
`sizeofT = sizeof(T)` and `offset` passed by reference: the new `values` and
the new `offset`.  The text stored is `to_string<int8_t>(data + offset)`. -/
def parse_value (sizeofT : Nat) (data : List Nat) (values : List Value) (i : Nat)
    (offset : Nat) (found : Bool) : List Value × Nat :=
  (if found then values.set i (to_string_int8 data offset) else values,
   (offset + sizeofT) % 4294967296)

/-- The loop `for (j = 0; j < numvalues; j++) if (indexinfos[j] == i) break;`
started at `j` with `n` positions left: the value of `j` when it ends. -/
def find_wanted (indexinfos : List Int) (i : Nat) : Nat → Nat → Nat
  | 0, j => j
  | n + 1, j => if indexinfos.getD j 0 = (i : Int) then j else find_wanted indexinfos i n (j + 1)

/-- Type of `ctx->columns[i]`. -/
def column_type (ctx : flatgeobuf_ctx) (i : Nat) : ColumnType :=
  match (ctx.columns.getD [])[i]? with
  | some column => column.type
  | none => ColumnType.other

/-- What one pass through the `while (offset + 1 < size)` loop of
`flatgeobuf_decode_properties` gives: the function returns `status`, or the
pass ends and the next one starts with the cursor `offset`, or the pass
copies from outside of the memory at hand.  `values` is the output array. -/
inductive Pass where
  | returned (status : Int) (values : List Value)
  | next (offset : Nat) (values : List Value)
  | fault
  deriving DecidableEq, Repr

/-- One pass through the `while (offset + 1 < size)` loop of
`flatgeobuf_decode_properties`, from the loop test on, entered with cursor
`offset` and output array `values`.  The copy of a wanted string takes
`len` bytes from `data + offset` into a block of `len + 1` bytes (a
`uint32_t` sum); it is a fault when the sum wraps or when the memory at hand
holds fewer than `len` bytes from there. -/
def decode_properties_pass (ctx : flatgeobuf_ctx) (indexinfos : List Int) (numvalues : Nat)
    (offset : Nat) (values : List Value) : Pass :=
  let data := ctx.properties
  let size := ctx.properties_size
  if (offset + 1) % 4294967296 < size then
    let i := readLE data offset 2
    let offset := (offset + 2) % 4294967296
    if i ≥ ctx.columns_len then Pass.returned (-1) values
    else
      let j := find_wanted indexinfos i numvalues 0
      let found := decide (j < numvalues)
      let next (r : List Value × Nat) := Pass.next r.2 r.1
      match column_type ctx i with
      | ColumnType.bool => next (parse_value 1 (data.drop offset) values j offset found)
      | ColumnType.byte => next (parse_value 1 (data.drop offset) values j offset found)
      | ColumnType.ubyte => next (parse_value 1 (data.drop offset) values j offset found)
      | ColumnType.short => next (parse_value 2 (data.drop offset) values j offset found)
      | ColumnType.ushort => next (parse_value 2 (data.drop offset) values j offset found)
      | ColumnType.int => next (parse_value 4 (data.drop offset) values j offset found)
      | ColumnType.uint => next (parse_value 4 (data.drop offset) values j offset found)
      | ColumnType.long => next (parse_value 8 (data.drop offset) values j offset found)
      | ColumnType.ulong => next (parse_value 8 (data.drop offset) values j offset found)
      | ColumnType.float => next (parse_value 4 (data.drop offset) values j offset found)
      | ColumnType.double => next (parse_value 8 (data.drop offset) values j offset found)
      | ColumnType.datetime | ColumnType.string =>
        if offset + 4 > size then Pass.returned (-1) values
        else
          let len := readLE data offset 4
          let offset := (offset + 4) % 4294967296
          if found then
            let bytes := (data.drop offset).take len
            if (len + 1) % 4294967296 < len + 1 ∨ bytes.length < len then Pass.fault
            else Pass.next ((offset + len) % 4294967296) (values.set j (Value.str bytes))
          else Pass.next ((offset + len) % 4294967296) values
      | ColumnType.other => Pass.next offset values
  else Pass.returned 0 values

/-- The `while (offset + 1 < size)` loop of `flatgeobuf_decode_properties`,
entered with cursor `offset` and output array `values`: the returned status
and the output array.  `fuel` bounds the number of passes. -/
def decode_properties_loop (ctx : flatgeobuf_ctx) (indexinfos : List Int) (numvalues : Nat) :
    Nat → Nat → List Value → Option (Defined (Int × List Value))
  | 0, _, _ => none
  | fuel + 1, offset, values =>
    match decode_properties_pass ctx indexinfos numvalues offset values with
    | Pass.returned status values => some (Defined.ok (status, values))
    | Pass.next offset values => decode_properties_loop ctx indexinfos numvalues fuel offset values
    | Pass.fault => some Defined.fault

/-- Function `flatgeobuf_decode_properties(ctx, layer, shape)`: the returned
status and the shape. -/
def flatgeobuf_decode_properties {G : Type} (fuel : Nat) (ctx : flatgeobuf_ctx)
    (layer : layerObj) (shape : shapeObj G) : Option (Defined (Int × shapeObj G)) :=
  let size := ctx.properties_size
  let numvalues := layer.numitems % 65536
  if numvalues = 0 then some (Defined.ok (0, shape))
  else
    let indexinfos := layer.iteminfo
    let values := List.replicate numvalues Value.uninit
    let shape := { shape with numvalues := numvalues, values := some values }
    if size > 0 ∧ size < 2 + 1 then some (Defined.ok (-1, shape))
    else
      match decode_properties_loop ctx indexinfos numvalues fuel 0 values with
      | none => none
      | some Defined.fault => some Defined.fault
      | some (Defined.ok (status, values)) =>
        some (Defined.ok (status, { shape with values := some values }))

/-! ## File handle -/

/-- Bytes of the file the device can deliver. -/
def VSILFILE.readable (f : VSILFILE) : List Nat :=
  match f.errorAt with
  | some k => f.data.take k
  | none => f.data

/-- Call `VSIFReadL(p, 1, n, f)`: the bytes delivered (fewer than `n` on a
short read) and the handle afterwards.  The end-of-file indicator is raised
by a short read that stopped at the end of the file. -/
def VSIFReadL (f : VSILFILE) (n : Nat) : List Nat × VSILFILE :=
  let got := (f.readable.drop f.pos).take n
  let atEnd := decide (f.readable.length = f.data.length)
  (got, { f with pos := f.pos + got.length, eof := f.eof || (decide (got.length < n) && atEnd) })

/-- Call `VSIFEofL(f)`. -/
def VSIFEofL (f : VSILFILE) : Bool := f.eof

/-- Call `VSIFSeekL(f, offset, SEEK_SET)`: the status and the handle. -/
def VSIFSeekL (f : VSILFILE) (offset : Nat) : Int × VSILFILE :=
  if f.seekable then (0, { f with pos := offset, eof := false }) else (-1, f)

/-- The bytes `got` are more than the block holds: a read that delivers them
at its start writes behind its end. -/
def overrun : List Nat → List Nat → Bool
  | _, [] => false
  | [], _ :: _ => true
  | _ :: block, _ :: got => overrun block got

/-- The block with the bytes `got` written over its start.  The block keeps
its size: no byte is kept behind its end. -/
def overwrite : List Nat → List Nat → List Nat
  | [], _ => []
  | b :: block, [] => b :: block
  | _ :: block, g :: got => g :: overwrite block got

/-- A read that delivers `got` into the block `buf` writes behind its end
(`none` is the null pointer, a block of no bytes). -/
def overruns (buf : Option (List Nat)) (got : List Nat) : Bool :=
  overrun (buf.getD []) got

/-- Contents of the block `buf` after a read delivered `got` at its start. -/
def store (buf : Option (List Nat)) (got : List Nat) : Option (List Nat) :=
  some (overwrite (buf.getD []) got)

/-! ## Scratch buffer -/

/-- Constant `INIT_BUFFER_SIZE`. -/
def INIT_BUFFER_SIZE : Nat := 1024 * 4

/-- Block returned by `malloc(n)`; its bytes are not initialised and are
shown as 0. -/
def malloc (n : Nat) : Option (List Nat) := some (List.replicate n 0)

/-- Block returned by `realloc(buf, n)`. -/
def realloc {G : Type} (E : Externals G) (buf : List Nat) (n : Nat) : Option (List Nat) :=
  if n = 0 ∧ E.realloc_zero_null = true then none
  else some (buf.take n ++ List.replicate (n - buf.length) 0)

/-- Function `flatgeobuf_ensure_buf(ctx, size)`; `fuel` bounds the depth of
its recursion. -/
def flatgeobuf_ensure_buf {G : Type} (E : Externals G) :
    Nat → flatgeobuf_ctx → Nat → Option flatgeobuf_ctx
  | 0, _, _ => none
  | fuel + 1, ctx, size =>
    match ctx.buf with
    | none => some { ctx with buf_size := INIT_BUFFER_SIZE, buf := malloc INIT_BUFFER_SIZE }
    | some buf =>
      if ctx.buf_size < size then
        let buf_size := (ctx.buf_size * 2) % 4294967296
        flatgeobuf_ensure_buf E fuel
          { ctx with buf_size := buf_size, buf := realloc E buf buf_size } size
      else some ctx

/-! ## Feature stream decoder -/

/-- Function `flatgeobuf_decode_feature(ctx, layer, shape)`: the returned
status, the context and the shape.  `fuel` bounds the depth of the recursion
on records without geometry, and is handed to the buffer growth and to the
attribute decoder.  A read of the record that delivers more bytes than the
scratch buffer holds is a fault.  `feature` is a position in the scratch
buffer, taken before the nested call and used after it. -/
def flatgeobuf_decode_feature {G : Type} (E : Externals G) :
    Nat → flatgeobuf_ctx → layerObj → shapeObj G →
      Option (Defined (Int × flatgeobuf_ctx × shapeObj G))
  | 0, _, _, _ => none
  | fuel + 1, ctx, layer, shape =>
    let (got, file) := VSIFReadL ctx.file 4
    if got.length ≠ 4 then
      if VSIFEofL file then some (Defined.ok (0, { ctx with file := file, done := true }, shape))
      else some (Defined.ok (-1, { ctx with file := file }, shape))
    else
      let featureSize := readLE got 0 4
      match flatgeobuf_ensure_buf E fuel
          { ctx with file := file, offset := ctx.offset + 4 } featureSize with
      | none => none
      | some ctx =>
        let (got, file) := VSIFReadL ctx.file featureSize
        if overruns ctx.buf got then some Defined.fault
        else if got.length ≠ featureSize then
          some (Defined.ok (-1, { ctx with file := file, buf := store ctx.buf got }, shape))
        else
          let ctx := { ctx with file := file, buf := store ctx.buf got,
                                offset := ctx.offset + featureSize }
          let feature := E.GetFeature (ctx.buf.getD [])
          let geometry := E.Feature_geometry (ctx.buf.getD []) feature
          let skipped : Option (Defined (flatgeobuf_ctx × shapeObj G)) :=
            match geometry with
            | some geometry => some (Defined.ok (ctx, E.GeometryReader_read ctx geometry shape))
            | none =>
              match flatgeobuf_decode_feature E fuel ctx layer shape with
              | none => none
              | some Defined.fault => some Defined.fault
              | some (Defined.ok (_, ctx, shape)) => some (Defined.ok (ctx, shape))
          match skipped with
          | none => none
          | some Defined.fault => some Defined.fault
          | some (Defined.ok (ctx, shape)) =>
            match E.Feature_properties (ctx.buf.getD []) feature with
            | some (data, size) =>
              if size ≠ 0 then
                let ctx := { ctx with properties := (ctx.buf.getD []).drop data,
                                      properties_size := size }
                match flatgeobuf_decode_properties fuel ctx layer shape with
                | none => none
                | some Defined.fault => some Defined.fault
                | some (Defined.ok (_, shape)) => some (Defined.ok (0, ctx, shape))
              else some (Defined.ok (0, { ctx with properties_size := 0 }, shape))
            | none => some (Defined.ok (0, { ctx with properties_size := 0 }, shape))

/-! ## Header decoder -/

/-- Array `flatgeobuf_magicbytes`. -/
def flatgeobuf_magicbytes : List Nat := [0x66, 0x67, 0x62, 0x03, 0x66, 0x67, 0x62, 0x01]

/-- Constant `FLATGEOBUF_MAGICBYTES_SIZE`. -/
def FLATGEOBUF_MAGICBYTES_SIZE : Nat := flatgeobuf_magicbytes.length

/-- The comparison loop of `flatgeobuf_check_magicbytes`, at index `i` with
`n` indices left: `true` when it finds `ctx->buf[i] != flatgeobuf_magicbytes[i]`. -/
def magicbytes_differ (buf : List Nat) : Nat → Nat → Bool
  | 0, _ => false
  | n + 1, i =>
    if byteAt buf i ≠ byteAt flatgeobuf_magicbytes i then true
    else magicbytes_differ buf n (i + 1)

/-- Function `flatgeobuf_check_magicbytes(ctx)`: the returned status and the
context. -/
def flatgeobuf_check_magicbytes (ctx : flatgeobuf_ctx) : Int × flatgeobuf_ctx :=
  if ctx.offset ≠ 0 then (-1, ctx)
  else
    let buf := malloc FLATGEOBUF_MAGICBYTES_SIZE
    let (got, file) := VSIFReadL ctx.file 8
    let buf := store buf got
    if got.length ≠ 8 then (-1, { ctx with file := file, buf := buf })
    else if magicbytes_differ (buf.getD []) (FLATGEOBUF_MAGICBYTES_SIZE / 2) 0 then
      (-1, { ctx with file := file, buf := buf })
    else
      (0, { ctx with file := file, buf := buf,
                     offset := ctx.offset + FLATGEOBUF_MAGICBYTES_SIZE })

/-- Lines 268 to 308 of `flatgeobuf_decode_header`: the context after the
header block of `headerSize` bytes, now in the scratch buffer, has been taken
over.  Each field is given its final value. -/
def decode_header_fields {G : Type} (E : Externals G) (ctx : flatgeobuf_ctx)
    (headerSize : Nat) : flatgeobuf_ctx :=
  let header := E.GetHeader (ctx.buf.getD [])
  let offset := ctx.offset + headerSize
  let envelope := header.envelope
  let columns := header.columns
  { ctx with
    offset := offset,
    geometry_type := header.geometry_type,
    features_count := header.features_count,
    has_extent := match envelope with | some _ => true | none => ctx.has_extent,
    xmin := match envelope with | some envelope => envelope.minx | none => ctx.xmin,
    ymin := match envelope with | some envelope => envelope.miny | none => ctx.ymin,
    xmax := match envelope with | some envelope => envelope.maxx | none => ctx.xmax,
    ymax := match envelope with | some envelope => envelope.maxy | none => ctx.ymax,
    bounds := match envelope with | some envelope => envelope | none => ctx.bounds,
    has_z := header.has_z,
    has_m := header.has_m,
    has_t := header.has_t,
    has_tm := header.has_tm,
    index_node_size := header.index_node_size,
    srid := match header.crs with | some code => code | none => ctx.srid,
    columns := match columns with | some columns => some columns | none => ctx.columns,
    columns_len := match columns with | some columns => columns.length | none => ctx.columns_len,
    feature_offset :=
      if header.index_node_size > 0 then
        offset + E.PackedRTree_size header.features_count header.index_node_size
      else offset }

/-- Function `flatgeobuf_decode_header(ctx)`: the returned status and the
context; `fuel` is handed to the buffer growth.  A read of the header that
delivers more bytes than the scratch buffer holds is a fault. -/
def flatgeobuf_decode_header {G : Type} (E : Externals G) (fuel : Nat) (ctx : flatgeobuf_ctx) :
    Option (Defined (Int × flatgeobuf_ctx)) :=
  if ctx.offset ≠ FLATGEOBUF_MAGICBYTES_SIZE then some (Defined.ok (-1, ctx))
  else
    let (status, file) := VSIFSeekL ctx.file ctx.offset
    if status = -1 then some (Defined.ok (-1, { ctx with file := file }))
    else
      let (got, file) := VSIFReadL file 4
      if got.length ≠ 4 then some (Defined.ok (-1, { ctx with file := file }))
      else
        let headerSize := readLE got 0 4
        match flatgeobuf_ensure_buf E fuel
            { ctx with file := file, offset := ctx.offset + 4 } headerSize with
        | none => none
        | some ctx =>
          let (got, file) := VSIFReadL ctx.file headerSize
          if overruns ctx.buf got then some Defined.fault
          else if got.length ≠ headerSize then
            some (Defined.ok (-1, { ctx with file := file, buf := store ctx.buf got }))
          else
            some (Defined.ok (0, decode_header_fields E
              { ctx with file := file, buf := store ctx.buf got } headerSize))

/-- Function `flatgeobuf_index_skip(ctx)`: the returned status and the
context. -/
def flatgeobuf_index_skip {G : Type} (E : Externals G) (ctx : flatgeobuf_ctx) :
    Int × flatgeobuf_ctx :=
  let treeSize := E.PackedRTree_size ctx.features_count ctx.index_node_size
  let offset := ctx.offset + treeSize
  let (status, file) := VSIFSeekL ctx.file offset
  if status = -1 then (-1, { ctx with offset := offset, file := file })
  else (0, { ctx with offset := offset, file := file })

/-! ## Cursor of the attribute scan -/

/-- Cursor of the `while` loop of `flatgeobuf_decode_properties` at the end of
the iteration that starts with cursor `offset`; `none` when the loop is not
entered at `offset` or the iteration returns.  The cursor depends on the
record and the schema only. -/
def pair_end (ctx : flatgeobuf_ctx) (offset : Nat) : Option Nat :=
  let data := ctx.properties
  let size := ctx.properties_size
  if (offset + 1) % 4294967296 < size then
    let i := readLE data offset 2
    let offset := (offset + 2) % 4294967296
    if i ≥ ctx.columns_len then none
    else
      match column_type ctx i with
      | ColumnType.bool | ColumnType.byte | ColumnType.ubyte => some ((offset + 1) % 4294967296)
      | ColumnType.short | ColumnType.ushort => some ((offset + 2) % 4294967296)
      | ColumnType.int | ColumnType.uint | ColumnType.float => some ((offset + 4) % 4294967296)
      | ColumnType.long | ColumnType.ulong | ColumnType.double => some ((offset + 8) % 4294967296)
      | ColumnType.datetime | ColumnType.string =>
        if offset + 4 > size then none
        else some (((offset + 4) % 4294967296 + readLE data offset 4) % 4294967296)
      | ColumnType.other => some offset
  else none

/-- Cursor of the scan after `n` complete iterations from the start of the
record, when the scan gets that far. -/
def scan_cursor (ctx : flatgeobuf_ctx) : Nat → Option Nat
  | 0 => some 0
  | n + 1 => (scan_cursor ctx n).bind (pair_end ctx)

/-- The scan stands at cursor `offset` after `n` iterations and reads there a
column index that is not below `ctx->columns_len`. -/
def meets_bad_index (ctx : flatgeobuf_ctx) (n offset : Nat) : Prop :=
  scan_cursor ctx n = some offset ∧ (offset + 1) % 4294967296 < ctx.properties_size ∧
    ctx.columns_len ≤ readLE ctx.properties offset 2

instance (ctx : flatgeobuf_ctx) (n offset : Nat) : Decidable (meets_bad_index ctx n offset) := by
  unfold meets_bad_index; infer_instance

/-! ## Notions used in the claims -/

/-- The NUL-terminated string at position `k` of a region: what a
`const char *` pointing there denotes. -/
def c_str (mem : List Nat) (k : Nat) : List Nat := (mem.drop k).takeWhile (fun b => b ≠ 0)

/-- The string `ctx->columns[i].name` denotes in the current scratch buffer. -/
def column_name (ctx : flatgeobuf_ctx) (i : Nat) : List Nat :=
  match (ctx.columns.getD [])[i]? with
  | some column => c_str (ctx.buf.getD []) column.name
  | none => []

/-- Width of the value of the pair at cursor `offset`, by the type of its
column: 1 for `bool`, `byte`, `ubyte`; 2 for `short`, `ushort`; 4 for `int`,
`uint`, `float`; 8 for `long`, `ulong`, `double`; 4 plus the declared length
for `string` and `datetime`; 0 for a type without a case. -/
def value_width (ctx : flatgeobuf_ctx) (offset : Nat) : Nat :=
  match column_type ctx (readLE ctx.properties offset 2) with
  | ColumnType.bool | ColumnType.byte | ColumnType.ubyte => 1
  | ColumnType.short | ColumnType.ushort => 2
  | ColumnType.int | ColumnType.uint | ColumnType.float => 4
  | ColumnType.long | ColumnType.ulong | ColumnType.double => 8
  | ColumnType.datetime | ColumnType.string =>
    4 + readLE ctx.properties ((offset + 2) % 4294967296) 4
  | ColumnType.other => 0

/-- The value of the pair at cursor `offset` can be copied if its column is
wanted: for a `string` or `datetime` pair of declared length `len` whose
column is in the wanted list, the sum `len + 1` does not wrap and the `len`
bytes behind the length prefix lie in the memory at hand.  Pairs of the other
types and pairs of columns that are not wanted are not copied. -/
def pair_in_memory (ctx : flatgeobuf_ctx) (indexinfos : List Int) (numvalues : Nat)
    (offset : Nat) : Prop :=
  match column_type ctx (readLE ctx.properties offset 2) with
  | ColumnType.datetime | ColumnType.string =>
    find_wanted indexinfos (readLE ctx.properties offset 2) numvalues 0 < numvalues →
      readLE ctx.properties ((offset + 2) % 4294967296) 4 + 1 < 4294967296 ∧
        ((offset + 2) % 4294967296 + 4) % 4294967296
          + readLE ctx.properties ((offset + 2) % 4294967296) 4 ≤ ctx.properties.length
  | _ => True

instance (ctx : flatgeobuf_ctx) (indexinfos : List Int) (numvalues offset : Nat) :
    Decidable (pair_in_memory ctx indexinfos numvalues offset) := by
  unfold pair_in_memory; split <;> infer_instance

/-- The wanted pairs that the scan passes before its `n`-th pass can be
copied. -/
def pairs_in_memory (ctx : flatgeobuf_ctx) (indexinfos : List Int) (numvalues : Nat)
    (n : Nat) : Prop :=
  ∀ k < n, ∀ o, scan_cursor ctx k = some o → pair_in_memory ctx indexinfos numvalues o

/-- State of the loop of `flatgeobuf_decode_properties` after `n` passes from
the cursor 0 and the output array `values`: the cursor and the output array;
`none` when the loop has returned or met a fault before. -/
def scan_state (ctx : flatgeobuf_ctx) (indexinfos : List Int) (numvalues : Nat)
    (values : List Value) : Nat → Option (Nat × List Value)
  | 0 => some (0, values)
  | n + 1 =>
    match scan_state ctx indexinfos numvalues values n with
    | none => none
    | some (o, v) =>
      match decode_properties_pass ctx indexinfos numvalues o v with
      | Pass.next o' v' => some (o', v')
      | _ => none

/-- What `flatgeobuf_decode_properties` makes of the result of its loop. -/
def finish_properties {G : Type} (shape : shapeObj G) (numvalues : Nat)
    (r : Option (Defined (Int × List Value))) : Option (Defined (Int × shapeObj G)) :=
  match r with
  | none => none
  | some Defined.fault => some Defined.fault
  | some (Defined.ok (status, values)) =>
    some (Defined.ok (status, { shape with numvalues := numvalues, values := some values }))

/-- The result of a run seen through `f`. -/
def Defined.map {α β : Type} (f : α → β) : Defined α → Defined β
  | Defined.fault => Defined.fault
  | Defined.ok a => Defined.ok (f a)

/-- The run `f` started on the result of the run `r`. -/
def and_then {α β : Type} (r : Option (Defined α)) (f : α → Option (Defined β)) :
    Option (Defined β) :=
  match r with
  | none => none
  | some Defined.fault => some Defined.fault
  | some (Defined.ok a) => f a

/-- The result of a run, or `d` when the run has none. -/
def result_or {α : Type} (r : Option (Defined α)) (d : α) : α :=
  match r with
  | some (Defined.ok a) => a
  | _ => d

/-! ## Concrete inputs -/

/-- Stand-in collaborators for the concrete runs.  A header block is laid out
as `[features_count, index_node_size]`, a feature record as
`[geometry flag, properties size, properties bytes ...]`; every index node
takes 40 bytes; `realloc(p, 0)` returns a null pointer. -/
def toyExternals : Externals Unit :=
  { GetHeader := fun buf =>
      { geometry_type := 0, features_count := byteAt buf 0, envelope := none,
        has_z := false, has_m := false, has_t := false, has_tm := false,
        index_node_size := byteAt buf 1, crs := none, columns := none },
    GetFeature := fun _ => 0,
    Feature_geometry := fun buf feature => if byteAt buf feature = 1 then some feature else none,
    Feature_properties := fun buf feature => some (feature + 2, byteAt buf (feature + 1)),
    GeometryReader_read := fun _ _ shape => { shape with geometry := some () },
    PackedRTree_size := fun numItems _ => 40 * numItems,
    realloc_zero_null := true }

/-- Shape before any decode: no geometry, no values. -/
def emptyShape : shapeObj Unit := { geometry := none, numvalues := 0, values := none }

/-- Handle at the start of a healthy file with the given contents. -/
def memFile (data : List Nat) : VSILFILE :=
  { data := data, pos := 0, eof := false, errorAt := none, seekable := true }

/-- Context whose schema is the single column 0 of type `int` and whose
attribute record is `00 00 | 2C 01 00 00`: column 0 = 300. -/
def ctxInt300 : flatgeobuf_ctx :=
  { flatgeobuf_init_ctx (memFile []) with
    columns := some [⟨0, ColumnType.int⟩], columns_len := 1,
    properties := [0, 0, 0x2C, 0x01, 0, 0], properties_size := 6 }

/-- Context whose schema has the single column 0 of type `string` and whose
attribute record is `01 00 | 07`: a pair for column 1. -/
def ctxBadIndexFirst : flatgeobuf_ctx :=
  { flatgeobuf_init_ctx (memFile []) with
    columns := some [⟨0, ColumnType.string⟩], columns_len := 1,
    properties := [1, 0, 7], properties_size := 3 }

/-- Context whose schema has the single column 0 of type `string` and whose
attribute record is `00 00 | 01 00 00 00 | 61` followed by `05 00 | 01`: a
pair for column 0 and a pair for column 5. -/
def ctxBadIndexSecond : flatgeobuf_ctx :=
  { flatgeobuf_init_ctx (memFile []) with
    columns := some [⟨0, ColumnType.string⟩], columns_len := 1,
    properties := [0, 0, 1, 0, 0, 0, 97, 5, 0, 1], properties_size := 10 }

/-- Context whose schema has the single column 0 of type `string` and whose
attribute record of 6 bytes is `00 00 | FC FF FF FF`: a pair for column 0
whose declared length is 4294967292.  Behind it the 32-bit cursor stands at
2, where the bytes `FC FF` read as the column index 65532. -/
def ctxOverlongFirst : flatgeobuf_ctx :=
  { flatgeobuf_init_ctx (memFile []) with
    columns := some [⟨0, ColumnType.string⟩], columns_len := 1,
    properties := [0, 0, 0xFC, 0xFF, 0xFF, 0xFF], properties_size := 6 }

/-- Context whose schema is column 0 of type `string` and column 1 of type
`int`, and whose attribute record of 7 bytes is `00 00 | 05 00 00 00 | 61`: a
string of declared length 5 with a single byte left in the record. -/
def ctxLongString : flatgeobuf_ctx :=
  { flatgeobuf_init_ctx (memFile []) with
    columns := some [⟨0, ColumnType.string⟩, ⟨0, ColumnType.int⟩], columns_len := 2,
    properties := [0, 0, 5, 0, 0, 0, 97], properties_size := 7 }

/-- Fresh context with the schema [column 0 : `string`] on a stream whose only
record (9 bytes) has no geometry and the attribute record
`00 00 | 01 00 00 00 | 61`. -/
def ctxLastNoGeometry : flatgeobuf_ctx :=
  { flatgeobuf_init_ctx (memFile [9, 0, 0, 0, 0, 7, 0, 0, 1, 0, 0, 0, 97]) with
    columns := some [⟨0, ColumnType.string⟩], columns_len := 1 }

/-- Fresh context on a stream whose first record (2 bytes) has no geometry and
no attributes, and whose device fails at byte 6, where the length prefix of
the next record starts. -/
def ctxNestedIOError : flatgeobuf_ctx :=
  flatgeobuf_init_ctx
    { data := [2, 0, 0, 0, 0, 0, 1, 0, 0, 0, 1], pos := 0, eof := false,
      errorAt := some 6, seekable := true }

/-- Fresh context on the file `66 67 62 03 00 00 00 00`. -/
def ctxSecondHalfAltered : flatgeobuf_ctx :=
  flatgeobuf_init_ctx (memFile [0x66, 0x67, 0x62, 0x03, 0, 0, 0, 0])

/-- Fresh context on a file that holds the signature, a header block of
declared length 2 (3 features, node size 2), 120 bytes of index and a
feature record of 3 bytes. -/
def ctxSignature : flatgeobuf_ctx :=
  flatgeobuf_init_ctx
    (memFile ([0x66, 0x67, 0x62, 0x03, 0x66, 0x67, 0x62, 0x01, 2, 0, 0, 0, 3, 2] ++
      List.replicate 120 0 ++ [3, 0, 0, 0, 1, 0, 7]))

/-- Context left by `flatgeobuf_check_magicbytes` on `ctxSignature`. -/
def ctxAfterSignature : flatgeobuf_ctx := (flatgeobuf_check_magicbytes ctxSignature).2

/-- Context left by `flatgeobuf_decode_header` on `ctxAfterSignature`. -/
def ctxAfterHeader : flatgeobuf_ctx :=
  (result_or (flatgeobuf_decode_header toyExternals 3 ctxAfterSignature)
    (0, ctxAfterSignature)).2

/-- Context left by `flatgeobuf_index_skip` on `ctxAfterHeader`. -/
def ctxAfterSkip : flatgeobuf_ctx := (flatgeobuf_index_skip toyExternals ctxAfterHeader).2

/-- Fresh context at the end of an empty stream. -/
def ctxAtEnd : flatgeobuf_ctx := flatgeobuf_init_ctx (memFile [])

/-- Fresh context on a file of 4 bytes whose device fails at byte 0. -/
def ctxDeviceError : flatgeobuf_ctx :=
  flatgeobuf_init_ctx
    { data := [1, 0, 0, 0], pos := 0, eof := false, errorAt := some 0, seekable := true }

/-- Fresh context on a stream with the single record `01 00 07`: geometry
present, no attributes. -/
def ctxGeometryRecord : flatgeobuf_ctx :=
  flatgeobuf_init_ctx (memFile [3, 0, 0, 0, 1, 0, 7])

/-- Result of `flatgeobuf_decode_feature` on `ctxGeometryRecord`. -/
def afterGeometryRecord : Int × flatgeobuf_ctx × shapeObj Unit :=
  result_or (flatgeobuf_decode_feature toyExternals 2 ctxGeometryRecord ⟨[]⟩ emptyShape)
    (0, ctxGeometryRecord, emptyShape)

/-- Stand-in collaborators with a schema.  A header block is laid out as
`[features_count, index_node_size, name of column 0 ..., 0]` and declares the
single column 0 of type `string`, whose name starts at position 2 of the
block; the rest is as in `toyExternals`. -/
def toyExternalsSchema : Externals Unit :=
  { toyExternals with
    GetHeader := fun buf =>
      { geometry_type := 0, features_count := byteAt buf 0, envelope := none,
        has_z := false, has_m := false, has_t := false, has_tm := false,
        index_node_size := byteAt buf 1, crs := none,
        columns := some [⟨2, ColumnType.string⟩] } }

/-- Fresh context on a file that holds the signature, a header block of 7
bytes (1 feature, no index, column 0 named `name`) and one feature record of
9 bytes with a geometry and the attribute record `00 00 | 01 00 00 00 | 78`. -/
def ctxSchemaFile : flatgeobuf_ctx :=
  flatgeobuf_init_ctx
    (memFile [0x66, 0x67, 0x62, 0x03, 0x66, 0x67, 0x62, 0x01, 7, 0, 0, 0,
      1, 0, 110, 97, 109, 101, 0, 9, 0, 0, 0, 1, 7, 0, 0, 1, 0, 0, 0, 120])

/-- Context left by `flatgeobuf_check_magicbytes` and `flatgeobuf_decode_header`
on `ctxSchemaFile`. -/
def ctxSchemaHeader : flatgeobuf_ctx :=
  (result_or (flatgeobuf_decode_header toyExternalsSchema 3
    (flatgeobuf_check_magicbytes ctxSchemaFile).2) (-1, ctxSchemaFile)).2

/-- Result of one `flatgeobuf_decode_feature` on `ctxSchemaHeader`. -/
def afterSchemaFeature : Int × flatgeobuf_ctx × shapeObj Unit :=
  result_or (flatgeobuf_decode_feature toyExternalsSchema 3 ctxSchemaHeader ⟨[0]⟩ emptyShape)
    (-1, ctxSchemaFile, emptyShape)

/-- Context whose schema is column 0 and column 1 of type `string` and whose
attribute record has 0 bytes. -/
def ctxEmptyRecord : flatgeobuf_ctx :=
  { flatgeobuf_init_ctx (memFile []) with
    columns := some [⟨0, ColumnType.string⟩, ⟨0, ColumnType.string⟩], columns_len := 2,
    properties := [], properties_size := 0 }

/-- Context with the schema of `ctxEmptyRecord` and the attribute record
`00 00 | 01 00 00 00 | 61`: a pair for column 0, none for column 1. -/
def ctxOnlyFirstColumn : flatgeobuf_ctx :=
  { flatgeobuf_init_ctx (memFile []) with
    columns := some [⟨0, ColumnType.string⟩, ⟨0, ColumnType.string⟩], columns_len := 2,
    properties := [0, 0, 1, 0, 0, 0, 97], properties_size := 7 }

/-- Context with the schema of `ctxEmptyRecord` and an attribute record of
the single byte `07`. -/
def ctxOneByteRecord : flatgeobuf_ctx :=
  { flatgeobuf_init_ctx (memFile []) with
    columns := some [⟨0, ColumnType.string⟩, ⟨0, ColumnType.string⟩], columns_len := 2,
    properties := [7], properties_size := 1 }

/-- Fresh context on a stream whose only record declares 5 bytes and holds 2. -/
def ctxTruncatedRecord : flatgeobuf_ctx :=
  flatgeobuf_init_ctx (memFile [5, 0, 0, 0, 1, 0])

/-- Context left by `flatgeobuf_check_magicbytes` on a file that holds the
signature and a header block that declares 9 bytes and holds 1. -/
def ctxTruncatedHeader : flatgeobuf_ctx :=
  (flatgeobuf_check_magicbytes (flatgeobuf_init_ctx
    (memFile [0x66, 0x67, 0x62, 0x03, 0x66, 0x67, 0x62, 0x01, 9, 0, 0, 0, 1]))).2

/-- Context at offset 14 with 3 features and node size 2, on a file handle
that cannot seek. -/
def ctxNoSeek : flatgeobuf_ctx :=
  { flatgeobuf_init_ctx { data := [], pos := 14, eof := false, errorAt := none,
                          seekable := false } with
    offset := 14, features_count := 3, index_node_size := 2 }

/-- Result of `flatgeobuf_decode_feature` on `ctxTruncatedRecord`. -/
def afterTruncatedRecord : Int × flatgeobuf_ctx × shapeObj Unit :=
  result_or (flatgeobuf_decode_feature toyExternals 2 ctxTruncatedRecord ⟨[]⟩ emptyShape)
    (0, ctxTruncatedRecord, emptyShape)

/-- Result of `flatgeobuf_decode_header` on `ctxTruncatedHeader`. -/
def afterTruncatedHeader : Int × flatgeobuf_ctx :=
  result_or (flatgeobuf_decode_header toyExternals 3 ctxTruncatedHeader) (0, ctxTruncatedHeader)

/-- Context whose schema is column 0 of type `string` and column 1 of type
`int`, and whose attribute record of 6 bytes is `00 00 | FA FF FF FF`: a pair
for column 0 whose declared length is 4294967290. -/
def ctxWrappingLength : flatgeobuf_ctx :=
  { flatgeobuf_init_ctx (memFile []) with
    columns := some [⟨0, ColumnType.string⟩, ⟨0, ColumnType.int⟩], columns_len := 2,
    properties := [0, 0, 0xFA, 0xFF, 0xFF, 0xFF], properties_size := 6 }

/-- The collaborators of `toyExternals` with a C library whose
`realloc(p, 0)` returns a block instead of a null pointer. -/
def toyExternalsKeepZero : Externals Unit :=
  { toyExternals with realloc_zero_null := false }

/-- Fresh context on the signature followed by a header block of 2 bytes
(1 feature, no index) and a record of 1 byte. -/
def ctxSmallHeader : flatgeobuf_ctx :=
  flatgeobuf_init_ctx (memFile (flatgeobuf_magicbytes ++ [2, 0, 0, 0, 1, 0, 1, 0, 0, 0, 1]))

/-- Context whose schema is the single column 0 of type `ubyte` and whose
attribute record of 3 bytes is `00 00 | 07`; the two bytes that follow the
record in memory are `09 2A`. -/
def ctxByteThenMemory : flatgeobuf_ctx :=
  { flatgeobuf_init_ctx (memFile []) with
    columns := some [⟨0, ColumnType.ubyte⟩], columns_len := 1,
    properties := [0, 0, 7, 9, 0x2A], properties_size := 3 }

/-- The context `ctxByteThenMemory` with the same record `00 00 | 07` and
other bytes after it in memory: `09 2B`. -/
def ctxByteThenOtherMemory : flatgeobuf_ctx :=
  { ctxByteThenMemory with properties := [0, 0, 7, 9, 0x2B] }

/-- Fresh context on a file that holds the signature, a header block of 2
bytes (2 features, no index), a record of 2 bytes without geometry and
without attributes, and a last record that declares 5 bytes and is cut after
the first. -/
def ctxCutAfterSkipped : flatgeobuf_ctx :=
  flatgeobuf_init_ctx (memFile (flatgeobuf_magicbytes ++
    [2, 0, 0, 0, 2, 0] ++ [2, 0, 0, 0, 0, 0] ++ [5, 0, 0, 0, 1]))

/-- Context left on `ctxCutAfterSkipped` by `flatgeobuf_check_magicbytes`. -/
def cutAfterSignature : Int × flatgeobuf_ctx := flatgeobuf_check_magicbytes ctxCutAfterSkipped

/-- Context left by `flatgeobuf_decode_header` called next. -/
def cutAfterHeader : Int × flatgeobuf_ctx :=
  result_or (flatgeobuf_decode_header toyExternals 3 cutAfterSignature.2)
    (1, cutAfterSignature.2)


/-- Context whose schema is column 0 and column 1, both of type `string`, and
whose attribute record of 15 bytes is `01 00 | 01 00 00 00 | 61` followed by
`00 00 | 02 00 00 00 | 68 69`: the string `a` for column 1, then the string
`hi` for column 0. -/
def ctxTwoStrings : flatgeobuf_ctx :=
  { flatgeobuf_init_ctx (memFile []) with
    columns := some [⟨0, ColumnType.string⟩, ⟨0, ColumnType.string⟩], columns_len := 2,
    properties := [1, 0, 1, 0, 0, 0, 97, 0, 0, 2, 0, 0, 0, 104, 105], properties_size := 15 }

/-- Context whose schema is column 0 and column 1, both of type `string`, and
whose attribute record of 6 bytes is `00 00 | FC FF FF FF`: a pair for
column 0 whose declared length is 4294967292.  The record is all the memory
at hand. -/
def ctxOverlongOfTwo : flatgeobuf_ctx :=
  { flatgeobuf_init_ctx (memFile []) with
    columns := some [⟨0, ColumnType.string⟩, ⟨0, ColumnType.string⟩], columns_len := 2,
    properties := [0, 0, 0xFC, 0xFF, 0xFF, 0xFF], properties_size := 6 }

/-- Stand-in collaborators as `toyExternals`, with the feature table at the
position that the first 4 bytes of the buffer hold, as `GetFeature` finds the
root table of a record: a feature record is laid out as
`[position p (4 bytes), ..., geometry flag, properties size, properties
bytes ...]` with the geometry flag at `p`. -/
def rootedExternals : Externals Unit :=
  { toyExternals with GetFeature := fun buf => readLE buf 0 4 }

/-- Fresh context with the schema [column 0 : `string`] on a stream of three
records.  Record 1 (13 bytes, table at 4) has a geometry and the attribute
record `00 00 | 01 00 00 00 | 61`; record 2 (9 bytes, table at 7) has neither
geometry nor attributes; record 3 (13 bytes, table at 4) has a geometry and
the attribute record `00 00 | 01 00 00 00 | 63`. -/
def ctxStaleTable : flatgeobuf_ctx :=
  { flatgeobuf_init_ctx (memFile
      [13, 0, 0, 0, 4, 0, 0, 0, 1, 7, 0, 0, 1, 0, 0, 0, 97,
       9, 0, 0, 0, 7, 0, 0, 0, 0, 0, 0, 0, 0,
       13, 0, 0, 0, 4, 0, 0, 0, 1, 7, 0, 0, 1, 0, 0, 0, 99]) with
    columns := some [⟨0, ColumnType.string⟩], columns_len := 1 }

/-- Fresh context with the schema [column 0 : `string`] on a stream that
holds record 3 of `ctxStaleTable` alone. -/
def ctxThirdAlone : flatgeobuf_ctx :=
  { flatgeobuf_init_ctx (memFile [13, 0, 0, 0, 4, 0, 0, 0, 1, 7, 0, 0, 1, 0, 0, 0, 99]) with
    columns := some [⟨0, ColumnType.string⟩], columns_len := 1 }
/-! ## Index search -/

/-- The part of `rectObj` read by the search.  The coordinates are doubles in
the code; the search compares them and never computes with them, so a
coordinate is kept as a point of a linear order, here an integer. -/
structure rectObj where
  minx : Int
  miny : Int
  maxx : Int
  maxy : Int
  deriving DecidableEq, Repr

/-- Modelled from the spec: the type `NodeItem` of the packed index is
declared outside of the sources at hand.  A node is four coordinate bounds
and an offset (the byte offset of the feature, for a leaf). -/
structure NodeItem where
  minX : Int
  minY : Int
  maxX : Int
  maxY : Int
  offset : Nat
  deriving DecidableEq, Repr

/-- Modelled from the spec: the test "the node's box intersects the query
rectangle" of the traversal, whose code is outside of the sources at hand.
Boxes are closed. -/
def NodeItem.intersects (a b : NodeItem) : Bool :=
  decide (a.minX ≤ b.maxX) && decide (b.minX ≤ a.maxX) &&
    decide (a.minY ≤ b.maxY) && decide (b.minY ≤ a.maxY)

/-- Box `b` lies within box `a`. -/
def NodeItem.includes (a b : NodeItem) : Bool :=
  decide (a.minX ≤ b.minX) && decide (b.maxX ≤ a.maxX) &&
    decide (a.minY ≤ b.minY) && decide (b.maxY ≤ a.maxY)

/-- The reader handed to the search: from the handle, a byte offset inside
the index and a byte count, the bytes read (`none` when the reader throws)
and the handle afterwards. -/
abbrev NodeReader : Type := VSILFILE → Nat → Nat → Option (List Nat) × VSILFILE

/-- A search routine in the place of `PackedRTree::streamSearch`: from the
feature count, the node size, the query box, the reader and the handle, the
items found (`none` when it throws) and the handle afterwards. -/
abbrev StreamSearch : Type :=
  Nat → Nat → NodeItem → NodeReader → VSILFILE →
    Option (List flatgeobuf_search_item) × VSILFILE

/-- The lambda `readNode` of `flatgeobuf_index_search`, which captures
`treeOffset`: seek to `treeOffset + i`, read `s` bytes, throw when the seek
fails or the read is short. -/
def readNode (treeOffset : Nat) : NodeReader := fun file i s =>
  let (status, file) := VSIFSeekL file (treeOffset + i)
  if status = -1 then (none, file)
  else
    let (got, file) := VSIFReadL file s
    if got.length ≠ s then (none, file) else (some got, file)

/-- Function `flatgeobuf_index_search(ctx, rect)`: the returned status and the
context.  `streamSearch` stands for `PackedRTree::streamSearch`; an exception
it throws is caught and gives -1. -/
def flatgeobuf_index_search (streamSearch : StreamSearch) (ctx : flatgeobuf_ctx)
    (rect : rectObj) : Int × flatgeobuf_ctx :=
  let treeOffset := ctx.offset
  let n : NodeItem := ⟨rect.minx, rect.miny, rect.maxx, rect.maxy, 0⟩
  match streamSearch ctx.features_count ctx.index_node_size n (readNode treeOffset) ctx.file with
  | (some foundItems, file) =>
    (0, { ctx with file := file, search_result := some foundItems,
                   search_result_len := foundItems.length % 4294967296 })
  | (none, file) => (-1, { ctx with file := file })

/-- Modelled from the spec: the class `PackedRTree` is outside of the sources
at hand.  The index is a dense array of node records of `record_width` bytes
each, grouped into levels; level 0 is the leaf level.  The level geometry
follows from the feature count and the node size, the first two arguments of
each field:

* `decode bytes` is the node held by a record;
* `root` is the byte offset of the record of the root, `height` its level;
* `children numItems nodeSize level o` are the byte offsets of the children of
  the node at offset `o` of the level `level`, one level below;
* `feature_index numItems nodeSize o` is the index of the feature of the leaf
  at offset `o`. -/
structure PackedRTree where
  record_width : Nat
  decode : List Nat → NodeItem
  root : Nat → Nat → Nat
  height : Nat → Nat → Nat
  children : Nat → Nat → Nat → Nat → List Nat
  feature_index : Nat → Nat → Nat → Nat

/-- Modelled from the spec: one read per node of the work-list, in its order;
`none` as soon as a read fails.  The code of the traversal is outside of the
sources at hand. -/
def read_nodes (T : PackedRTree) (reader : NodeReader) :
    List Nat → VSILFILE → Option (List (Nat × NodeItem)) × VSILFILE
  | [], file => (some [], file)
  | o :: work, file =>
    match reader file o T.record_width with
    | (none, file) => (none, file)
    | (some bytes, file) =>
      match read_nodes T reader work file with
      | (none, file) => (none, file)
      | (some nodes, file) => (some ((o, T.decode bytes) :: nodes), file)

/-- Modelled from the spec: the breadth-first traversal of
`PackedRTree::streamSearch`, whose code is outside of the sources at hand.
The work-list holds the nodes of one level.  Each is read once; a node whose
box does not intersect the query is pruned; an intersecting leaf is emitted
as (feature byte offset, feature index); the children of the intersecting
interior nodes form the work-list of the level below.  A failed read aborts
the search without a result. -/
def search_levels (T : PackedRTree) (numItems nodeSize : Nat) (item : NodeItem)
    (reader : NodeReader) :
    Nat → List Nat → VSILFILE → Option (List flatgeobuf_search_item) × VSILFILE
  | 0, work, file =>
    match read_nodes T reader work file with
    | (none, file) => (none, file)
    | (some nodes, file) =>
      (some ((nodes.filter (fun n => item.intersects n.2)).map
        (fun n => ⟨n.2.offset, T.feature_index numItems nodeSize n.1⟩)), file)
  | level + 1, work, file =>
    match read_nodes T reader work file with
    | (none, file) => (none, file)
    | (some nodes, file) =>
      search_levels T numItems nodeSize item reader level
        ((nodes.filter (fun n => item.intersects n.2)).flatMap
          (fun n => T.children numItems nodeSize (level + 1) n.1)) file

/-- Modelled from the spec: `PackedRTree::streamSearch(numItems, nodeSize,
item, readNode)`, outside of the sources at hand: the traversal started with
the root as the only node of the work-list. -/
def PackedRTree_streamSearch (T : PackedRTree) : StreamSearch :=
  fun numItems nodeSize item reader file =>
    search_levels T numItems nodeSize item reader (T.height numItems nodeSize)
      [T.root numItems nodeSize] file

/-! ## Index search: notions used in the claims -/

/-- The query box that `flatgeobuf_index_search` builds from `rect`. -/
def query_box (rect : rectObj) : NodeItem := ⟨rect.minx, rect.miny, rect.maxx, rect.maxy, 0⟩

/-- The node whose record stands at byte offset `o` of the index that starts
at `ctx.offset`. -/
def index_node (T : PackedRTree) (ctx : flatgeobuf_ctx) (o : Nat) : NodeItem :=
  T.decode ((ctx.file.data.drop (ctx.offset + o)).take T.record_width)

/-- The record at byte offset `o` of the index can be read: the handle seeks
and the device delivers all its bytes. -/
def node_readable (T : PackedRTree) (ctx : flatgeobuf_ctx) (o : Nat) : Bool :=
  ctx.file.seekable &&
    decide (((ctx.file.readable.drop (ctx.offset + o)).take T.record_width).length
      = T.record_width)

/-- The nodes `level` levels below the nodes `work`. -/
def descend (T : PackedRTree) (numItems nodeSize : Nat) : Nat → List Nat → List Nat
  | 0, work => work
  | level + 1, work =>
    descend T numItems nodeSize level
      (work.flatMap (T.children numItems nodeSize (level + 1)))

/-- The leaves of the index of `ctx`, as byte offsets of their records. -/
def index_leaves (T : PackedRTree) (ctx : flatgeobuf_ctx) : List Nat :=
  descend T ctx.features_count ctx.index_node_size
    (T.height ctx.features_count ctx.index_node_size)
    [T.root ctx.features_count ctx.index_node_size]

/-- The box of the node at offset `o` of level `level` includes the boxes of
its children, and so on down to the leaves. -/
def boxes_nested (T : PackedRTree) (ctx : flatgeobuf_ctx) : Nat → Nat → Bool
  | 0, _ => true
  | level + 1, o =>
    (T.children ctx.features_count ctx.index_node_size (level + 1) o).all
      (fun c => (index_node T ctx o).includes (index_node T ctx c) &&
        boxes_nested T ctx level c)

/-- A well-formed packed index: the box of every interior node includes the
boxes of its children (it is their union), and the leaves stand for distinct
features. -/
def well_formed_index (T : PackedRTree) (ctx : flatgeobuf_ctx) : Prop :=
  boxes_nested T ctx (T.height ctx.features_count ctx.index_node_size)
      (T.root ctx.features_count ctx.index_node_size) = true ∧
    ((index_leaves T ctx).map
      (T.feature_index ctx.features_count ctx.index_node_size)).Nodup

instance (T : PackedRTree) (ctx : flatgeobuf_ctx) : Decidable (well_formed_index T ctx) := by
  unfold well_formed_index; infer_instance

/-- The result item of the leaf at byte offset `o`. -/
def leaf_item (T : PackedRTree) (ctx : flatgeobuf_ctx) (o : Nat) : flatgeobuf_search_item :=
  ⟨(index_node T ctx o).offset, T.feature_index ctx.features_count ctx.index_node_size o⟩

/-- The nodes the traversal for `rect` comes to, from the nodes `work` of the
level `level` down. -/
def visited_from (T : PackedRTree) (ctx : flatgeobuf_ctx) (rect : rectObj) :
    Nat → List Nat → List Nat
  | 0, work => work
  | level + 1, work =>
    work ++ visited_from T ctx rect level
      ((work.filter (fun o => (query_box rect).intersects (index_node T ctx o))).flatMap
        (T.children ctx.features_count ctx.index_node_size (level + 1)))

/-- The nodes the traversal for `rect` comes to. -/
def visited_nodes (T : PackedRTree) (ctx : flatgeobuf_ctx) (rect : rectObj) : List Nat :=
  visited_from T ctx rect (T.height ctx.features_count ctx.index_node_size)
    [T.root ctx.features_count ctx.index_node_size]

/-- The leaves the traversal for `rect` emits, from the nodes `work` of the
level `level` down, when every read succeeds. -/
def pruned_leaves (T : PackedRTree) (ctx : flatgeobuf_ctx) (rect : rectObj) :
    Nat → List Nat → List Nat
  | 0, work => work.filter (fun o => (query_box rect).intersects (index_node T ctx o))
  | level + 1, work =>
    pruned_leaves T ctx rect level
      ((work.filter (fun o => (query_box rect).intersects (index_node T ctx o))).flatMap
        (T.children ctx.features_count ctx.index_node_size (level + 1)))

/-- The handle `f'` is on the same device as `f`: same contents, same failing
byte, same ability to seek. -/
def same_device (f f' : VSILFILE) : Prop :=
  f'.data = f.data ∧ f'.errorAt = f.errorAt ∧ f'.seekable = f.seekable

/-! ## Index search: concrete inputs -/

/-- Stand-in for an index of 4 features with node size 2: 7 records of 5 bytes
(the four bounds and the offset, one byte each) in the order root, level 1,
leaves.  The children of the record at byte offset `o` stand at `2 * o + 5`
and `2 * o + 10`; the leaf at byte offset `o` stands for feature
`o / 5 - 3`. -/
def toyTree : PackedRTree :=
  { record_width := 5,
    decode := fun b => ⟨byteAt b 0, byteAt b 1, byteAt b 2, byteAt b 3, byteAt b 4⟩,
    root := fun _ _ => 0,
    height := fun _ _ => 2,
    children := fun _ _ _ o => [2 * o + 5, 2 * o + 10],
    feature_index := fun _ _ o => o / 5 - 3 }

/-- The records of an index for `toyTree`: root `[0,9]x[0,9]`, level 1
`[0,4]x[0,4]` and `[5,9]x[5,9]`, leaves `[0,1]x[0,1]`, `[3,4]x[3,4]`,
`[5,6]x[5,6]`, `[8,9]x[8,9]` with feature offsets 100, 110, 120, 130. -/
def toyIndexBytes : List Nat :=
  [0, 0, 9, 9, 0] ++ [0, 0, 4, 4, 0, 5, 5, 9, 9, 0] ++
    [0, 0, 1, 1, 100, 3, 3, 4, 4, 110, 5, 5, 6, 6, 120, 8, 8, 9, 9, 130]

/-- Context at offset 2 of a file that holds two bytes and then the index
`toyIndexBytes`, with the result `[(7, 7)]` of an earlier search. -/
def ctxToyIndex : flatgeobuf_ctx :=
  { flatgeobuf_init_ctx (memFile ([0xAA, 0xBB] ++ toyIndexBytes)) with
    offset := 2, features_count := 4, index_node_size := 2,
    search_result := some [⟨7, 7⟩], search_result_len := 1 }

/-- The context `ctxToyIndex` on a file cut after 30 bytes: the record of the
third leaf, at byte offset 25 of the index, is 3 bytes short. -/
def ctxCutIndex : flatgeobuf_ctx :=
  { ctxToyIndex with file := memFile (([0xAA, 0xBB] ++ toyIndexBytes).take 30) }

/-- The query rectangle `[4,5]x[4,5]`. -/
def toyQuery : rectObj := ⟨4, 4, 5, 5⟩

end FlatGeobuf

/-!
# OGC API of MapServer (`src/mapogcapi.cpp`)

A shallow embedding of `getRequestParameter`, `getLimit` and
`getFeatureGeometry`.  A C string is a `String`, a null `char *` is `none`;
an exception thrown is the `Except.error` with its message.
-/

namespace OgcApi

/-! ## Limit of a request -/

/-- Modelled from the spec: the return codes `MS_SUCCESS` and `MS_FAILURE` are
defined outside of the sources at hand. -/
inductive Status where
  | MS_SUCCESS
  | MS_FAILURE
  deriving DecidableEq, Repr

/-- Constant `OGCAPI_LIMIT_DEFAULT`. -/
def OGCAPI_LIMIT_DEFAULT : Int := 10

/-- Constant `OGCAPI_LIMIT_MAXIMUM`. -/
def OGCAPI_LIMIT_MAXIMUM : Int := 10000

/-- Modelled from the spec: the macro `MS_MIN` is defined outside of the
sources at hand; it yields the smaller of its two arguments. -/
def MS_MIN (a b : Int) : Int := if a < b then a else b

/-- The part of `cgiRequestObj` read here: the parameters of the query string
in their order, each a name and a value (a `char *` that may be null). -/
structure cgiRequestObj where
  params : List (String × Option String)
  deriving DecidableEq, Repr

/-- Function `getRequestParameter(request, item)`: the value of the first
parameter named `item`, `none` for the null pointer. -/
def getRequestParameter (request : cgiRequestObj) (item : String) : Option String :=
  match request.params.find? (fun p => p.1 = item) with
  | some p => p.2
  | none => none

/-- Function `getLimit(map, request, limit)`: the returned status and the
value of `*limit` afterwards.  `msStringToInt str value base`, whose code is
outside of the sources at hand, gives its status and the value it leaves in
`*value`. -/
def getLimit (msStringToInt : String → Int → Nat → Status × Int) (request : cgiRequestObj)
    (limit : Int) : Status × Int :=
  match getRequestParameter request "limit" with
  | none => (Status.MS_SUCCESS, OGCAPI_LIMIT_DEFAULT)
  | some p =>
    if p.length = 0 then (Status.MS_SUCCESS, OGCAPI_LIMIT_DEFAULT)
    else
      let (status, limit) := msStringToInt p limit 10
      if status ≠ Status.MS_SUCCESS then (Status.MS_FAILURE, limit)
      else if limit ≤ 0 then (Status.MS_SUCCESS, OGCAPI_LIMIT_DEFAULT)
      else (Status.MS_SUCCESS, MS_MIN limit OGCAPI_LIMIT_MAXIMUM)

/-- Value of a run of decimal digits, continued from `acc`. -/
def decimalValue (acc : Nat) : List Char → Option Nat
  | [] => some acc
  | c :: cs =>
    if 48 ≤ c.toNat ∧ c.toNat ≤ 57 then decimalValue (acc * 10 + (c.toNat - 48)) cs else none

/-- Stand-in for `msStringToInt` in base 10: a decimal integer with an
optional minus sign is stored with success; anything else fails and leaves
the value as it was. -/
def toyStringToInt (str : String) (value : Int) (_ : Nat) : Status × Int :=
  match str.data with
  | [] => (Status.MS_FAILURE, value)
  | '-' :: c :: cs =>
    match decimalValue 0 (c :: cs) with
    | some n => (Status.MS_SUCCESS, -(n : Int))
    | none => (Status.MS_FAILURE, value)
  | cs =>
    match decimalValue 0 cs with
    | some n => (Status.MS_SUCCESS, (n : Int))
    | none => (Status.MS_FAILURE, value)

/-! ## Feature geometry -/

/-- Values of `shape->type` with a case in `getFeatureGeometry`; `other`
stands for every value the `switch` sends to `default`. -/
inductive ShapeType where
  | MS_SHAPE_POINT
  | MS_SHAPE_LINE
  | MS_SHAPE_POLYGON
  | other
  deriving DecidableEq, Repr

/-- The part of `pointObj` read here.  `C` is the type of a coordinate, a
`double` in the code. -/
structure pointObj (C : Type) where
  x : C
  y : C
  deriving DecidableEq, Repr

/-- The part of `lineObj` read here: `point` is the array of its points,
`numpoints` its length. -/
structure lineObj (C : Type) where
  point : List (pointObj C)
  deriving DecidableEq, Repr

/-- Field `numpoints`. -/
def lineObj.numpoints {C : Type} (l : lineObj C) : Nat := l.point.length

/-- The part of `shapeObj` read here: `line` is the array of its rings or
parts, `numlines` its length. -/
structure shapeObj (C : Type) where
  type : ShapeType
  line : List (lineObj C)
  deriving DecidableEq, Repr

/-- Field `numlines`. -/
def shapeObj.numlines {C : Type} (shape : shapeObj C) : Nat := shape.line.length

/-- Values given to `geometry["type"]`. -/
inductive GeometryType where
  | Point
  | MultiPoint
  | LineString
  | MultiLineString
  | Polygon
  | MultiPolygon
  deriving DecidableEq, Repr

/-- Values given to `geometry["coordinates"]`: a position `[x, y]`, an array
of positions, an array of such arrays (rings or parts), or an array of
polygons, each an array of rings. -/
inductive Coordinates (C : Type) where
  | position (p : C × C)
  | positions (ps : List (C × C))
  | rings (rs : List (List (C × C)))
  | polygons (gs : List (List (List (C × C))))
  deriving DecidableEq, Repr

/-- The `json` object built by `getFeatureGeometry`. -/
structure Geometry (C : Type) where
  type : GeometryType
  coordinates : Coordinates C
  deriving DecidableEq, Repr

/-- What `getFeatureGeometry` calls and does not define by exact arithmetic.

* `round_up value decimal_places` is the function of that name, which
  computes on doubles (`std::pow`, `std::ceil`).
* `msGetOuterList shape` is the array of `numlines` flags, `true` for an outer
  ring; `none` is the null pointer.  Its code is outside of the sources at
  hand.
* `msGetInnerList shape k outerList` is the array of `numlines` flags, `true`
  for an inner ring of the outer ring `k`; `none` is the null pointer.  Its
  code is outside of the sources at hand. -/
structure Primitives (C : Type) where
  round_up : C → Nat → C
  msGetOuterList : shapeObj C → Option (List Bool)
  msGetInnerList : shapeObj C → Nat → List Bool → Option (List Bool)

/-- The loop over `j` that fills `part`: the positions of a ring or part,
rounded to `precision = 6` places. -/
def part {C : Type} (P : Primitives C) (l : lineObj C) : List (C × C) :=
  l.point.map (fun p => (P.round_up p.x 6, P.round_up p.y 6))

/-- The loop over `i` of the `MultiPolygon` branch for the outer ring `k`: the
array `polygon`. -/
def polygon {C : Type} (P : Primitives C) (shape : shapeObj C) (outerList : List Bool)
    (k : Nat) : List (List (C × C)) :=
  (List.range shape.numlines).filterMap (fun i =>
    if i = k ∨ outerList.getD i false = true then (shape.line[i]?).map (part P) else none)

/-- The loop over `k` of the `MultiPolygon` branch, for the values of `k` in
the list: the polygons pushed to `geometry["coordinates"]`, or the exception
thrown. -/
def polygons {C : Type} (P : Primitives C) (shape : shapeObj C) (outerList : List Bool) :
    List Nat → Except String (List (List (List (C × C))))
  | [] => Except.ok []
  | k :: ks =>
    if outerList.getD k false = true then
      match P.msGetInnerList shape k outerList with
      | none => Except.error "Unable to allocate list of inner rings."
      | some _ =>
        match polygons P shape outerList ks with
        | Except.error e => Except.error e
        | Except.ok gs => Except.ok (polygon P shape outerList k :: gs)
    else polygons P shape outerList ks

/-- Function `getFeatureGeometry(shape)`: the `json` value returned (`none`
for the empty value) or the exception thrown; `shape = none` is the null
pointer. -/
def getFeatureGeometry {C : Type} (P : Primitives C) (shape : Option (shapeObj C)) :
    Except String (Option (Geometry C)) :=
  match shape with
  | none => Except.error "Null shape."
  | some shape =>
    match shape.type, shape.line with
    | ShapeType.MS_SHAPE_POINT, [] => Except.ok none
    | ShapeType.MS_SHAPE_POINT, line0 :: _ =>
      match line0.point with
      | [] => Except.ok none
      | [p] =>
        Except.ok (some ⟨GeometryType.Point,
          Coordinates.position (P.round_up p.x 6, P.round_up p.y 6)⟩)
      | _ => Except.ok (some ⟨GeometryType.MultiPoint, Coordinates.positions (part P line0)⟩)
    | ShapeType.MS_SHAPE_LINE, [] => Except.ok none
    | ShapeType.MS_SHAPE_LINE, line0 :: _ =>
      if line0.numpoints < 2 then Except.ok none
      else if shape.numlines = 1 then
        Except.ok (some ⟨GeometryType.LineString, Coordinates.positions (part P line0)⟩)
      else
        Except.ok (some ⟨GeometryType.MultiLineString,
          Coordinates.rings (shape.line.map (part P))⟩)
    | ShapeType.MS_SHAPE_POLYGON, [] => Except.ok none
    | ShapeType.MS_SHAPE_POLYGON, line0 :: _ =>
      if line0.numpoints < 4 then Except.ok none
      else
        match P.msGetOuterList shape with
        | none => Except.error "Unable to allocate list of outer rings."
        | some outerList =>
          let numOuterRings :=
            ((List.range shape.numlines).filter (fun k => outerList.getD k false)).length
          if numOuterRings = 1 then
            Except.ok (some ⟨GeometryType.Polygon, Coordinates.rings (shape.line.map (part P))⟩)
          else
            match polygons P shape outerList (List.range shape.numlines) with
            | Except.error e => Except.error e
            | Except.ok gs =>
              Except.ok (some ⟨GeometryType.MultiPolygon, Coordinates.polygons gs⟩)
    | ShapeType.other, _ => Except.error "Invalid shape type."

/-! ## Concrete inputs -/

/-- Request `?f=json&limit=abc`. -/
def requestBadLimit : cgiRequestObj := ⟨[("f", some "json"), ("limit", some "abc")]⟩

/-- Request `?f=json&limit=20000`. -/
def requestBigLimit : cgiRequestObj := ⟨[("f", some "json"), ("limit", some "20000")]⟩

/-- Outer ring 0 of `holeAndIsland`, a triangle. -/
def ring0 : lineObj Int := ⟨[⟨0, 0⟩, ⟨9, 0⟩, ⟨0, 9⟩, ⟨0, 0⟩]⟩

/-- Ring 1 of `holeAndIsland`, a hole of ring 0. -/
def ring1 : lineObj Int := ⟨[⟨1, 1⟩, ⟨1, 3⟩, ⟨3, 1⟩, ⟨1, 1⟩]⟩

/-- Outer ring 2 of `holeAndIsland`, a triangle apart from ring 0. -/
def ring2 : lineObj Int := ⟨[⟨20, 20⟩, ⟨29, 20⟩, ⟨20, 29⟩, ⟨20, 20⟩]⟩

/-- Polygon shape with the rings 0 (outer), 1 (a hole of ring 0) and 2
(outer), on integer coordinates. -/
def holeAndIsland : shapeObj Int := ⟨ShapeType.MS_SHAPE_POLYGON, [ring0, ring1, ring2]⟩

/-- The primitives on `holeAndIsland`: integer coordinates are left as they
are by `round_up`, the outer rings are 0 and 2, the only inner ring is ring 1
of the outer ring 0. -/
def holeAndIslandPrimitives : Primitives Int :=
  { round_up := fun v _ => v,
    msGetOuterList := fun _ => some [true, false, true],
    msGetInnerList := fun _ k _ =>
      some (if k = 0 then [false, true, false] else [false, false, false]) }

end OgcApi

namespace FlatGeobuf

/-! ## Lemmas on the attribute scan -/

/-- The loop runs one pass and goes on as the pass says. -/
theorem loop_succ (ctx : flatgeobuf_ctx) (indexinfos : List Int) (numvalues : Nat)
    (fuel o : Nat) (values : List Value) :
    decode_properties_loop ctx indexinfos numvalues (fuel + 1) o values
      = match decode_properties_pass ctx indexinfos numvalues o values with
        | Pass.returned status values => some (Defined.ok (status, values))
        | Pass.next offset values =>
          decode_properties_loop ctx indexinfos numvalues fuel offset values
        | Pass.fault => some Defined.fault := rfl

/-- A pass that ends moves the cursor as `pair_end` says. -/
theorem pass_next_cursor (ctx : flatgeobuf_ctx) (indexinfos : List Int) (numvalues : Nat)
    (o o' : Nat) (values values' : List Value)
    (h : decode_properties_pass ctx indexinfos numvalues o values = Pass.next o' values') :
    pair_end ctx o = some o' := by
  unfold decode_properties_pass at h
  unfold pair_end
  simp only [] at h ⊢
  split at h
  · rename_i hlt
    rw [if_pos hlt]
    split at h
    · exact absurd h (by simp)
    · rename_i hidx
      rw [if_neg hidx]
      cases hty : column_type ctx (readLE ctx.properties o 2) <;> rw [hty] at h <;>
        simp only [parse_value] at h ⊢
      case datetime | string =>
        split at h
        · exact absurd h (by simp)
        · rename_i hsz
          rw [if_neg hsz]
          split at h
          · split at h
            · exact absurd h (by simp)
            · simp only [Pass.next.injEq] at h
              rw [h.1]
          · simp only [Pass.next.injEq] at h
            rw [h.1]
      all_goals
        simp only [Pass.next.injEq] at h
        rw [h.1]
  · exact absurd h (by simp)

/-- A pass over a pair that can be copied ends where `pair_end` says. -/
theorem pass_of_pair_end (ctx : flatgeobuf_ctx) (indexinfos : List Int) (numvalues : Nat)
    (o o' : Nat) (h : pair_end ctx o = some o') (hmem : pair_in_memory ctx indexinfos numvalues o)
    (values : List Value) :
    ∃ values', decode_properties_pass ctx indexinfos numvalues o values
      = Pass.next o' values' := by
  unfold pair_end at h
  unfold pair_in_memory at hmem
  unfold decode_properties_pass
  simp only [] at h ⊢
  split at h
  · rename_i hlt
    rw [if_pos hlt]
    split at h
    · exact absurd h (by simp)
    · rename_i hidx
      rw [if_neg hidx]
      cases hty : column_type ctx (readLE ctx.properties o 2) <;> rw [hty] at h hmem <;>
        simp only [parse_value] at h hmem ⊢
      case datetime | string =>
        split at h
        · exact absurd h (by simp)
        · rename_i hsz
          rw [if_neg hsz]
          simp only [Option.some.injEq] at h
          subst h
          split
          · rename_i hfound
            have hm := hmem (by simpa using hfound)
            rw [if_neg (by simp only [List.length_take, List.length_drop]; omega)]
            exact ⟨_, rfl⟩
          · exact ⟨_, rfl⟩
      all_goals
        simp only [Option.some.injEq] at h
        subst h
        exact ⟨_, rfl⟩
  · exact absurd h (by simp)

/-- One pass of the loop over a pair that can be copied moves the cursor as
`pair_end` says. -/
theorem loop_step (ctx : flatgeobuf_ctx) (indexinfos : List Int) (numvalues : Nat)
    (o o' : Nat) (h : pair_end ctx o = some o') (hmem : pair_in_memory ctx indexinfos numvalues o)
    (fuel : Nat) (values : List Value) :
    ∃ values', decode_properties_loop ctx indexinfos numvalues (fuel + 1) o values
      = decode_properties_loop ctx indexinfos numvalues fuel o' values' := by
  obtain ⟨v, hv⟩ := pass_of_pair_end ctx indexinfos numvalues o o' h hmem values
  exact ⟨v, by rw [loop_succ, hv]⟩

/-- After `n` passes over pairs that can be copied the loop stands at
`scan_cursor ctx n`. -/
theorem loop_reaches (ctx : flatgeobuf_ctx) (indexinfos : List Int) (numvalues : Nat) :
    ∀ (n o : Nat), scan_cursor ctx n = some o → pairs_in_memory ctx indexinfos numvalues n →
      ∀ (fuel : Nat) (values : List Value),
      ∃ values', decode_properties_loop ctx indexinfos numvalues (n + fuel) 0 values
        = decode_properties_loop ctx indexinfos numvalues fuel o values' := by
  intro n
  induction n with
  | zero =>
    intro o h _ fuel values
    simp only [scan_cursor, Option.some.injEq] at h
    subst h
    exact ⟨values, by rw [Nat.zero_add]⟩
  | succ n ih =>
    intro o h hmem fuel values
    simp only [scan_cursor] at h
    cases hn : scan_cursor ctx n with
    | none => rw [hn] at h; exact absurd h (by simp)
    | some o1 =>
      rw [hn] at h
      simp only [Option.some_bind] at h
      obtain ⟨v1, h1⟩ := ih o1 hn (fun k hk c hc => hmem k (Nat.lt_succ_of_lt hk) c hc)
        (fuel + 1) values
      obtain ⟨v2, h2⟩ := loop_step ctx indexinfos numvalues o1 o h
        (hmem n (Nat.lt_succ_self n) o1 hn) fuel v1
      refine ⟨v2, ?_⟩
      rw [← h2, ← h1]
      congr 1
      omega

/-- A pass that reads an index not below `columns_len` returns -1. -/
theorem loop_bad_index (ctx : flatgeobuf_ctx) (indexinfos : List Int) (numvalues : Nat)
    (o : Nat) (hlt : (o + 1) % 4294967296 < ctx.properties_size)
    (hbad : ctx.columns_len ≤ readLE ctx.properties o 2) (fuel : Nat) (values : List Value) :
    decode_properties_loop ctx indexinfos numvalues (fuel + 1) o values
      = some (Defined.ok (-1, values)) := by
  rw [loop_succ]
  unfold decode_properties_pass
  simp only [hlt, if_true, ge_iff_le, hbad]
/-! ## Lemmas on the header decoder -/

/-- The comparison loop looks at the first four bytes. -/
theorem magicbytes_differ_eight (a b c d e f g h : Nat) :
    magicbytes_differ [a, b, c, d, e, f, g, h] (FLATGEOBUF_MAGICBYTES_SIZE / 2) 0 = false ↔
      a = 0x66 ∧ b = 0x67 ∧ c = 0x62 ∧ d = 0x03 := by
  simp [magicbytes_differ, FLATGEOBUF_MAGICBYTES_SIZE, flatgeobuf_magicbytes, byteAt]

/-- A list of length 8, spelled out. -/
theorem length_eight {α : Type} (l : List α) (h : l.length = 8) :
    ∃ a b c d e f g i, l = [a, b, c, d, e, f, g, i] := by
  match l, h with
  | [a, b, c, d, e, f, g, i], _ => exact ⟨a, b, c, d, e, f, g, i, rfl⟩

/-- Result of `flatgeobuf_check_magicbytes` at offset 0 after a complete read. -/
theorem check_magicbytes_eq (ctx : flatgeobuf_ctx) (h0 : ctx.offset = 0)
    (h8 : (VSIFReadL ctx.file 8).1.length = 8) :
    flatgeobuf_check_magicbytes ctx =
      if magicbytes_differ (VSIFReadL ctx.file 8).1 (FLATGEOBUF_MAGICBYTES_SIZE / 2) 0 then
        (-1, { ctx with file := (VSIFReadL ctx.file 8).2, buf := some (VSIFReadL ctx.file 8).1 })
      else
        (0, { ctx with file := (VSIFReadL ctx.file 8).2, buf := some (VSIFReadL ctx.file 8).1,
                       offset := 8 }) := by
  obtain ⟨a, b, c, d, e, f, g, i, hgot⟩ := length_eight _ h8
  have hov : overwrite (List.replicate 8 0) [a, b, c, d, e, f, g, i]
      = [a, b, c, d, e, f, g, i] := rfl
  unfold flatgeobuf_check_magicbytes
  simp only [h0, ne_eq, not_true_eq_false, if_false, hgot, store, malloc,
    FLATGEOBUF_MAGICBYTES_SIZE, flatgeobuf_magicbytes, List.length_cons, List.length_nil,
    Option.getD_some, hov, Nat.reduceAdd, Nat.reduceSub, Nat.reduceDiv]

/-- Status and offset of `flatgeobuf_check_magicbytes` by the first four bytes. -/
theorem check_magicbytes_status (ctx : flatgeobuf_ctx) (h0 : ctx.offset = 0)
    (h8 : (VSIFReadL ctx.file 8).1.length = 8) :
    ((VSIFReadL ctx.file 8).1.take 4 = [0x66, 0x67, 0x62, 0x03] →
      (flatgeobuf_check_magicbytes ctx).1 = 0 ∧ (flatgeobuf_check_magicbytes ctx).2.offset = 8) ∧
    ((VSIFReadL ctx.file 8).1.take 4 ≠ [0x66, 0x67, 0x62, 0x03] →
      (flatgeobuf_check_magicbytes ctx).1 = -1 ∧ (flatgeobuf_check_magicbytes ctx).2.offset = 0) := by
  rw [check_magicbytes_eq ctx h0 h8]
  obtain ⟨a, b, c, d, e, f, g, i, hgot⟩ := length_eight _ h8
  have hd := magicbytes_differ_eight a b c d e f g i
  rw [hgot]
  simp only [List.take_succ_cons, List.take_zero, List.cons.injEq, and_true, ne_eq]
  constructor
  · intro h
    rw [hd.mpr h]
    simp
  · intro h
    have : magicbytes_differ [a, b, c, d, e, f, g, i] (FLATGEOBUF_MAGICBYTES_SIZE / 2) 0 = true := by
      cases hm : magicbytes_differ [a, b, c, d, e, f, g, i] (FLATGEOBUF_MAGICBYTES_SIZE / 2) 0
      · exact absurd (hd.mp hm) h
      · rfl
    rw [this]
    simp [h0]


/-- The value of `readLE` depends on the bytes it covers only. -/
theorem readLE_congr (a b : List Nat) :
    ∀ (w k j : Nat), (∀ i, i < w → byteAt a (k + i) = byteAt b (j + i)) →
      readLE a k w = readLE b j w := by
  intro w
  induction w with
  | zero => intro k j _; rfl
  | succ w ih =>
    intro k j h
    simp only [readLE]
    rw [ih (k + 1) (j + 1) (fun i hi => by
      have := h (i + 1) (by omega)
      rwa [show k + 1 + i = k + (i + 1) by omega, show j + 1 + i = j + (i + 1) by omega])]
    have h0 := h 0 (by omega)
    simp only [Nat.add_zero] at h0
    rw [h0]

/-- A complete read of `w` bytes delivers the file bytes at the position. -/
theorem readLE_of_read (f : VSILFILE) (w : Nat) (h : (VSIFReadL f w).1.length = w) :
    readLE (VSIFReadL f w).1 0 w = readLE f.data f.pos w := by
  apply readLE_congr
  intro i hi
  simp only [VSIFReadL] at h ⊢
  simp only [List.length_take, List.length_drop] at h
  have hlen : f.pos + w ≤ f.readable.length := by omega
  simp only [byteAt, List.getD_eq_getElem?_getD, List.getElem?_take, Nat.zero_add, hi, if_true,
    List.getElem?_drop]
  unfold VSILFILE.readable at hlen ⊢
  cases hk : f.errorAt with
  | none => rfl
  | some k =>
    rw [hk] at hlen
    simp only [List.length_take] at hlen
    simp only [List.getElem?_take]
    rw [if_pos (by omega)]

/-- Function `flatgeobuf_ensure_buf` changes `buf` and `buf_size` only. -/
theorem ensure_buf_frame {G : Type} (E : Externals G) :
    ∀ (fuel : Nat) (ctx ctx' : flatgeobuf_ctx) (size : Nat),
      flatgeobuf_ensure_buf E fuel ctx size = some ctx' →
      ctx' = { ctx with buf := ctx'.buf, buf_size := ctx'.buf_size } := by
  intro fuel
  induction fuel with
  | zero => intro ctx ctx' size h; simp [flatgeobuf_ensure_buf] at h
  | succ fuel ih =>
    intro ctx ctx' size h
    rw [flatgeobuf_ensure_buf] at h
    split at h
    · simp only [Option.some.injEq] at h
      subst h
      rfl
    · split at h
      · have := ih _ _ _ h
        rw [this]
      · simp only [Option.some.injEq] at h
        subst h
        rfl

/-- Offsets set by the second half of `flatgeobuf_decode_header`. -/
theorem decode_header_fields_ok {G : Type} (E : Externals G) (ctx : flatgeobuf_ctx)
    (headerSize : Nat) :
    (decode_header_fields E ctx headerSize).offset = ctx.offset + headerSize ∧
    (decode_header_fields E ctx headerSize).file = ctx.file ∧
    (decode_header_fields E ctx headerSize).feature_offset =
      if (decode_header_fields E ctx headerSize).index_node_size > 0 then
        (decode_header_fields E ctx headerSize).offset + E.PackedRTree_size
          (decode_header_fields E ctx headerSize).features_count
          (decode_header_fields E ctx headerSize).index_node_size
      else (decode_header_fields E ctx headerSize).offset :=
  ⟨rfl, rfl, rfl⟩

/-- What a successful `flatgeobuf_decode_header` leaves in the context. -/
theorem decode_header_ok {G : Type} (E : Externals G) (fuel : Nat) (ctx ctx' : flatgeobuf_ctx)
    (h : flatgeobuf_decode_header E fuel ctx = some (Defined.ok (0, ctx'))) :
    ctx.offset = 8 ∧
    ctx'.offset = 8 + 4 + readLE ctx.file.data 8 4 ∧
    ctx'.file.pos = ctx'.offset ∧
    ctx'.feature_offset =
      if ctx'.index_node_size > 0 then
        ctx'.offset + E.PackedRTree_size ctx'.features_count ctx'.index_node_size
      else ctx'.offset := by
  unfold flatgeobuf_decode_header at h
  split at h
  · simp at h
  · rename_i hoff
    simp only [ne_eq, not_not] at hoff
    have hoff8 : ctx.offset = 8 := hoff
    split at h
    rename_i status file hseek
    split at h
    · simp at h
    · split at h
      rename_i got file1 hread
      split at h
      · simp at h
      · rename_i hgot4
        simp only [ne_eq, not_not] at hgot4
        simp only [] at h
        split at h
        · simp at h
        · rename_i ctx1 hens
          split at h
          · simp at h
          · split at h
            · simp at h
            · rename_i hover hgot
              simp only [ne_eq, not_not] at hgot
              generalize hread2 : VSIFReadL ctx1.file (readLE got 0 4) = r2 at h hgot
              obtain ⟨got2, file2⟩ := r2
              simp only at h hgot
              simp only [Option.some.injEq, Defined.ok.injEq, Prod.mk.injEq, true_and] at h
              have hf := ensure_buf_frame E fuel _ _ _ hens
              have hfile : ctx1.file = file1 := congrArg flatgeobuf_ctx.file hf
              have hoff1 : ctx1.offset = ctx.offset + 4 := congrArg flatgeobuf_ctx.offset hf
              have hfields := decode_header_fields_ok E
                { ctx1 with file := file2, buf := store ctx1.buf got2 } (readLE got 0 4)
              rw [h] at hfields
              obtain ⟨ho, hfl, hfo⟩ := hfields
              simp only at ho hfl
              have hseek2 : file = { ctx.file with pos := 8, eof := false } := by
                unfold VSIFSeekL at hseek
                split at hseek
                · simp only [Prod.mk.injEq] at hseek
                  rw [← hseek.2, hoff8]
                · simp only [Prod.mk.injEq] at hseek
                  omega
              have hg : (VSIFReadL file 4).1 = got := by rw [hread]
              have hf1 : (VSIFReadL file 4).2 = file1 := by rw [hread]
              have hg2 : (VSIFReadL file1 (readLE got 0 4)).1 = got2 := by rw [← hfile, hread2]
              have hf2 : (VSIFReadL file1 (readLE got 0 4)).2 = file2 := by rw [← hfile, hread2]
              have hsize : readLE got 0 4 = readLE ctx.file.data 8 4 := by
                rw [← hg, readLE_of_read file 4 (by rw [hg]; exact hgot4), hseek2]
              have hpos1 : file1.pos = 12 := by
                rw [← hf1]
                rw [← hg] at hgot4
                simp only [VSIFReadL] at hgot4 ⊢
                rw [hgot4, hseek2]
              have hpos2 : file2.pos = 12 + readLE got 0 4 := by
                rw [← hf2]
                rw [← hg2] at hgot
                simp only [VSIFReadL] at hgot ⊢
                rw [hgot, hpos1]
              refine ⟨hoff8, ?_, ?_, hfo⟩
              · rw [ho, hoff1, hoff8, hsize]
              · rw [ho, hfl, hoff1, hoff8, hpos2]

/-- Bytes that fit in a block are written over its start and leave the rest
of the block as it was. -/
theorem overwrite_eq (block got : List Nat) (h : overrun block got = false) :
    overwrite block got = got ++ block.drop got.length := by
  induction block generalizing got with
  | nil =>
    cases got with
    | nil => rfl
    | cons g got => simp [overrun] at h
  | cons b block ih =>
    cases got with
    | nil => rfl
    | cons g got =>
      simp only [overrun] at h
      simp only [overwrite, ih got h, List.cons_append, List.length_cons, List.drop_succ_cons]

/-- Bytes fit in a block exactly when they are no more than the block holds. -/
theorem overrun_iff (block got : List Nat) :
    overrun block got = true ↔ block.length < got.length := by
  induction block generalizing got with
  | nil =>
    cases got with
    | nil => simp [overrun]
    | cons g got => simp [overrun]
  | cons b block ih =>
    cases got with
    | nil => simp [overrun]
    | cons g got => simp [overrun, ih got]

/-! ## Attribute value decoder: the claims -/

/-- C1 (fails on the code): for the schema [column 0 : `int`], the wanted list
`[0]` and the record `00 00 | 2C 01 00 00`, whose pair for column 0 holds the
little-endian `int` 300, `flatgeobuf_decode_properties` returns 0 and stores
at wanted position 0 the text "0" (the `int8_t` found at record index 4), not
the text "300". -/
theorem decode_properties_int_column_stores_int8 :
    flatgeobuf_decode_properties 2 ctxInt300 ⟨[0]⟩ emptyShape
      = some (Defined.ok
          (0, { geometry := none, numvalues := 1, values := some [Value.str [48]] })) ∧
    std_to_string (readLE ctxInt300.properties 2 4) = [51, 48, 48] := by
  decide

/-- C3 (fails on the code): on the 7-byte record `00 00 | 05 00 00 00 | 61`,
whose string pair declares 5 value bytes where the record has 1 left,
`flatgeobuf_decode_properties` returns 0, not -1 (wanted list `[1]`, so that
the string is skipped and not copied). -/
theorem decode_properties_long_string_returns_zero :
    flatgeobuf_decode_properties 2 ctxLongString ⟨[1]⟩ emptyShape
      = some (Defined.ok
          (0, { geometry := none, numvalues := 1, values := some [Value.uninit] })) := by
  decide
/-! ## Feature stream decoder: the claims -/

/-- C4 (fails on the code): on a stream whose only record has no geometry and
a non-empty attribute record, the call of `flatgeobuf_decode_feature` that
consumes the record reaches the end of the stream and sets `done`, and then
writes the record's attribute value into the shape. -/
theorem decode_feature_last_no_geometry_writes_values :
    (flatgeobuf_decode_feature toyExternals 3 ctxLastNoGeometry ⟨[0]⟩ emptyShape).map
      (Defined.map (fun r => (r.1, r.2.1.done, r.2.2.geometry, r.2.2.values)))
      = some (Defined.ok (0, true, none, some [Value.str [97]])) := by
  decide

/-- C5 (fails on the code): the first record has no geometry and the read of
the next length prefix fails on a device error, not at the end of the file.
The call of `flatgeobuf_decode_feature` returns 0 with `done` not set and no
geometry in the shape; a further call at the same place returns -1. -/
theorem decode_feature_nested_io_error_returns_zero :
    (flatgeobuf_decode_feature toyExternals 3 ctxNestedIOError ⟨[]⟩ emptyShape).map
      (Defined.map (fun r => (r.1, r.2.1.done, r.2.1.file.eof, r.2.2.geometry)))
      = some (Defined.ok (0, false, false, none)) ∧
    (and_then (flatgeobuf_decode_feature toyExternals 3 ctxNestedIOError ⟨[]⟩ emptyShape)
      (fun r => flatgeobuf_decode_feature toyExternals 3 r.2.1 ⟨[]⟩ r.2.2)).map
      (Defined.map (fun r => r.1)) = some (Defined.ok (-1)) := by
  refine ⟨?_, ?_⟩ <;> decide

/-! ## Header decoder and scratch buffer: the claims -/

/-- C6 as stated fails: the 8 bytes `66 67 62 03 00 00 00 00` differ from the
signature in the second half, and `flatgeobuf_check_magicbytes` returns 0 on
them. -/
theorem check_magicbytes_accepts_altered_second_half :
    ctxSecondHalfAltered.offset = 0 ∧
    (VSIFReadL ctxSecondHalfAltered.file 8).1 = [0x66, 0x67, 0x62, 0x03, 0, 0, 0, 0] ∧
    (VSIFReadL ctxSecondHalfAltered.file 8).1 ≠ flatgeobuf_magicbytes ∧
    (flatgeobuf_check_magicbytes ctxSecondHalfAltered).1 = 0 := by
  decide

/-- C6, amended: for a context at offset 0 whose file yields 8 bytes,
`flatgeobuf_check_magicbytes` returns 0 if and only if the first four of them
are `66 67 62 03`, and returns -1 if and only if they are not; the last four
bytes are not compared. -/
theorem check_magicbytes_iff_first_half (ctx : flatgeobuf_ctx) (h0 : ctx.offset = 0)
    (h8 : (VSIFReadL ctx.file 8).1.length = 8) :
    ((flatgeobuf_check_magicbytes ctx).1 = 0 ↔
      (VSIFReadL ctx.file 8).1.take 4 = [0x66, 0x67, 0x62, 0x03]) ∧
    ((flatgeobuf_check_magicbytes ctx).1 = -1 ↔
      (VSIFReadL ctx.file 8).1.take 4 ≠ [0x66, 0x67, 0x62, 0x03]) := by
  have hs := check_magicbytes_status ctx h0 h8
  by_cases h : (VSIFReadL ctx.file 8).1.take 4 = [0x66, 0x67, 0x62, 0x03]
  · have h1 := (hs.1 h).1
    simp [h1, h]
  · have h1 := (hs.2 h).1
    simp [h1, h]

/-- Witness for C6, amended: the file `66 67 62 03 00 00 00 00`. -/
theorem check_magicbytes_iff_first_half_witness :
    (ctxSecondHalfAltered.offset = 0 ∧
      (VSIFReadL ctxSecondHalfAltered.file 8).1.length = 8) ∧
    (((flatgeobuf_check_magicbytes ctxSecondHalfAltered).1 = 0 ↔
      (VSIFReadL ctxSecondHalfAltered.file 8).1.take 4 = [0x66, 0x67, 0x62, 0x03]) ∧
    ((flatgeobuf_check_magicbytes ctxSecondHalfAltered).1 = -1 ↔
      (VSIFReadL ctxSecondHalfAltered.file 8).1.take 4 ≠ [0x66, 0x67, 0x62, 0x03])) :=
  ⟨⟨by decide, by decide⟩,
   check_magicbytes_iff_first_half ctxSecondHalfAltered (by decide) (by decide)⟩

/-- C7: on a context at offset 0 whose file yields 8 bytes,
`flatgeobuf_check_magicbytes` returns 0 and sets the offset to 8 when the
bytes are the signature `66 67 62 03 66 67 62 01`, and returns -1 and leaves
the offset at 0 when one of the first four bytes differs from the signature. -/
theorem check_magicbytes_signature_and_first_half (ctx : flatgeobuf_ctx) (h0 : ctx.offset = 0)
    (h8 : (VSIFReadL ctx.file 8).1.length = 8) :
    ((VSIFReadL ctx.file 8).1 = flatgeobuf_magicbytes →
      (flatgeobuf_check_magicbytes ctx).1 = 0 ∧ (flatgeobuf_check_magicbytes ctx).2.offset = 8) ∧
    ((∃ i, i < 4 ∧ byteAt (VSIFReadL ctx.file 8).1 i ≠ byteAt flatgeobuf_magicbytes i) →
      (flatgeobuf_check_magicbytes ctx).1 = -1 ∧ (flatgeobuf_check_magicbytes ctx).2.offset = 0) := by
  have hs := check_magicbytes_status ctx h0 h8
  constructor
  · intro h
    exact hs.1 (by rw [h]; rfl)
  · rintro ⟨i, hi, hne⟩
    apply hs.2
    intro htake
    apply hne
    have hb : byteAt (VSIFReadL ctx.file 8).1 i = byteAt ((VSIFReadL ctx.file 8).1.take 4) i := by
      simp only [byteAt, List.getD_eq_getElem?_getD, List.getElem?_take, hi, if_true]
    rw [hb, htake]
    interval_cases i <;> rfl

/-- Witness for C7: the file holding the signature. -/
theorem check_magicbytes_signature_and_first_half_witness :
    (ctxSignature.offset = 0 ∧ (VSIFReadL ctxSignature.file 8).1.length = 8) ∧
    (((VSIFReadL ctxSignature.file 8).1 = flatgeobuf_magicbytes →
      (flatgeobuf_check_magicbytes ctxSignature).1 = 0 ∧
        (flatgeobuf_check_magicbytes ctxSignature).2.offset = 8) ∧
    ((∃ i, i < 4 ∧ byteAt (VSIFReadL ctxSignature.file 8).1 i ≠ byteAt flatgeobuf_magicbytes i) →
      (flatgeobuf_check_magicbytes ctxSignature).1 = -1 ∧
        (flatgeobuf_check_magicbytes ctxSignature).2.offset = 0)) :=
  ⟨⟨by decide, by decide⟩,
   check_magicbytes_signature_and_first_half ctxSignature (by decide) (by decide)⟩

/-- C8: after `flatgeobuf_decode_header` succeeds on a file whose header
length prefix (bytes 8 to 11) declares `h` bytes, `ctx.offset` is `8 + 4 + h`,
and `ctx.feature_offset` is that offset when `index_node_size` is 0 and that
offset plus `PackedRTree::size(features_count, index_node_size)` when
`index_node_size` is positive. -/
theorem decode_header_sets_offsets {G : Type} (E : Externals G) (fuel : Nat)
    (ctx ctx' : flatgeobuf_ctx)
    (h : flatgeobuf_decode_header E fuel ctx = some (Defined.ok (0, ctx'))) :
    ctx'.offset = 8 + 4 + readLE ctx.file.data 8 4 ∧
    (ctx'.index_node_size = 0 → ctx'.feature_offset = ctx'.offset) ∧
    (ctx'.index_node_size > 0 → ctx'.feature_offset =
      ctx'.offset + E.PackedRTree_size ctx'.features_count ctx'.index_node_size) := by
  obtain ⟨_, hoff, _, hfo⟩ := decode_header_ok E fuel ctx ctx' h
  refine ⟨hoff, fun h0 => ?_, fun hpos => ?_⟩
  · rw [hfo, if_neg (by omega)]
  · rw [hfo, if_pos hpos]

/-- Witness for C8: the header of `ctxSignature`, decoded on the context left
by `flatgeobuf_check_magicbytes`. -/
theorem decode_header_sets_offsets_witness :
    flatgeobuf_decode_header toyExternals 3 ctxAfterSignature
      = some (Defined.ok (0, ctxAfterHeader)) ∧
    (ctxAfterHeader.offset = 8 + 4 + readLE ctxAfterSignature.file.data 8 4 ∧
    (ctxAfterHeader.index_node_size = 0 → ctxAfterHeader.feature_offset = ctxAfterHeader.offset) ∧
    (ctxAfterHeader.index_node_size > 0 → ctxAfterHeader.feature_offset =
      ctxAfterHeader.offset +
        toyExternals.PackedRTree_size ctxAfterHeader.features_count
          ctxAfterHeader.index_node_size)) :=
  ⟨rfl, decode_header_sets_offsets toyExternals 3 ctxAfterSignature ctxAfterHeader rfl⟩

/-- C9: when the header has a positive `index_node_size`, a successful
`flatgeobuf_decode_header` followed by a successful `flatgeobuf_index_skip`
leaves `ctx.offset` equal to `ctx.feature_offset` and the file positioned
there, so that the 4-byte read that opens the next
`flatgeobuf_decode_feature` delivers the file's bytes from `feature_offset`
on, and the length it decodes is the 32-bit value stored there. -/
theorem index_skip_lands_on_feature_offset {G : Type} (E : Externals G) (fuel : Nat)
    (ctx ctx1 ctx2 : flatgeobuf_ctx)
    (hheader : flatgeobuf_decode_header E fuel ctx = some (Defined.ok (0, ctx1)))
    (hnode : ctx1.index_node_size > 0)
    (hskip : flatgeobuf_index_skip E ctx1 = (0, ctx2)) :
    ctx2.offset = ctx2.feature_offset ∧ ctx2.file.pos = ctx2.feature_offset ∧
    (VSIFReadL ctx2.file 4).1 = (ctx2.file.readable.drop ctx2.feature_offset).take 4 ∧
    ((VSIFReadL ctx2.file 4).1.length = 4 →
      readLE (VSIFReadL ctx2.file 4).1 0 4 = readLE ctx2.file.data ctx2.feature_offset 4) := by
  obtain ⟨_, _, _, hfo⟩ := decode_header_ok E fuel ctx ctx1 hheader
  rw [if_pos hnode] at hfo
  unfold flatgeobuf_index_skip VSIFSeekL at hskip
  simp only at hskip
  split at hskip
  · rw [if_neg (show ¬ ((0 : Int) = -1) by decide)] at hskip
    simp only [Prod.mk.injEq, true_and] at hskip
    have hpos : ctx2.file.pos = ctx2.feature_offset := by
      rw [← hskip]
      exact hfo.symm
    refine ⟨?_, hpos, ?_, fun hlen => ?_⟩
    · rw [← hskip]
      exact hfo.symm
    · rw [← hpos]
      rfl
    · rw [readLE_of_read ctx2.file 4 hlen, hpos]
  · rw [if_pos (show (-1 : Int) = -1 from rfl)] at hskip
    simp at hskip

/-- Witness for C9: header and index of `ctxSignature`. -/
theorem index_skip_lands_on_feature_offset_witness :
    (flatgeobuf_decode_header toyExternals 3 ctxAfterSignature
      = some (Defined.ok (0, ctxAfterHeader)) ∧
      ctxAfterHeader.index_node_size > 0 ∧
      flatgeobuf_index_skip toyExternals ctxAfterHeader = (0, ctxAfterSkip)) ∧
    (ctxAfterSkip.offset = ctxAfterSkip.feature_offset ∧
      ctxAfterSkip.file.pos = ctxAfterSkip.feature_offset ∧
      (VSIFReadL ctxAfterSkip.file 4).1 =
        (ctxAfterSkip.file.readable.drop ctxAfterSkip.feature_offset).take 4 ∧
      ((VSIFReadL ctxAfterSkip.file 4).1.length = 4 →
        readLE (VSIFReadL ctxAfterSkip.file 4).1 0 4 =
          readLE ctxAfterSkip.file.data ctxAfterSkip.feature_offset 4)) :=
  ⟨⟨rfl, by decide, rfl⟩,
   index_skip_lands_on_feature_offset toyExternals 3 ctxAfterSignature ctxAfterHeader
     ctxAfterSkip rfl (by decide) rfl⟩

/-- C10 (fails on the code): the first call of `flatgeobuf_ensure_buf` on a
context without buffer, for a requested size of 5000, returns with
`buf_size` 4096, below the requested size. -/
theorem ensure_buf_first_call_below_size :
    (flatgeobuf_ensure_buf toyExternals 1 (flatgeobuf_init_ctx (memFile [])) 5000).map
      (fun ctx => (ctx.buf_size, decide (ctx.buf_size < 5000))) = some (4096, true) := by
  decide

/-! ## Feature stream decoder: further claims -/

/-- C11 (fails on the code): a stream of three records whose second has no
geometry, decoded with the wanted list `[0]`.  The first call of
`flatgeobuf_decode_feature` returns record 1 with its value `a`.  The second
call reads record 2, reads record 3 in the nested call, which stores its
geometry and its value `c`, and then takes the attribute record through the
feature table of record 2, in a buffer that holds record 3 by now: it
returns 0 after all three records with the geometry of record 3 and an
output array whose only position is unassigned.  A third call sets `done`.
Record 3 alone decodes to the value `c`. -/
theorem decode_feature_after_skip_reads_stale_table :
    (flatgeobuf_decode_feature rootedExternals 5 ctxStaleTable ⟨[0]⟩ emptyShape).map
      (Defined.map (fun r => (r.1, r.2.1.done, r.2.1.offset, r.2.2.geometry, r.2.2.values)))
      = some (Defined.ok (0, false, 17, some (), some [Value.str [97]])) ∧
    (and_then (flatgeobuf_decode_feature rootedExternals 5 ctxStaleTable ⟨[0]⟩ emptyShape)
      (fun r => flatgeobuf_decode_feature rootedExternals 5 r.2.1 ⟨[0]⟩ emptyShape)).map
      (Defined.map (fun r => (r.1, r.2.1.done, r.2.1.offset, r.2.2.geometry, r.2.2.values)))
      = some (Defined.ok (0, false, 47, some (), some [Value.uninit])) ∧
    (and_then
      (and_then (flatgeobuf_decode_feature rootedExternals 5 ctxStaleTable ⟨[0]⟩ emptyShape)
        (fun r => flatgeobuf_decode_feature rootedExternals 5 r.2.1 ⟨[0]⟩ emptyShape))
      (fun r => flatgeobuf_decode_feature rootedExternals 5 r.2.1 ⟨[0]⟩ emptyShape)).map
      (Defined.map (fun r => (r.1, r.2.1.done, r.2.1.offset, r.2.2.geometry, r.2.2.values)))
      = some (Defined.ok (0, true, 47, none, none)) ∧
    (flatgeobuf_decode_feature rootedExternals 5 ctxThirdAlone ⟨[0]⟩ emptyShape).map
      (Defined.map (fun r => (r.1, r.2.1.done, r.2.1.offset, r.2.2.geometry, r.2.2.values)))
      = some (Defined.ok (0, false, 17, some (), some [Value.str [99]])) := by
  refine ⟨?_, ?_, ?_, ?_⟩ <;> decide

/-- C12: when the read of the 4-byte length prefix in
`flatgeobuf_decode_feature` is short, the call returns 0 with `done` set and
`offset` unchanged if the file reports end-of-file, and returns -1 with `done`
and `offset` unchanged if it does not. -/
theorem decode_feature_prefix_read_fails {G : Type} (E : Externals G) (fuel : Nat)
    (ctx : flatgeobuf_ctx) (layer : layerObj) (shape : shapeObj G)
    (hfail : (VSIFReadL ctx.file 4).1.length ≠ 4) :
    (VSIFEofL (VSIFReadL ctx.file 4).2 = true →
      ∃ ctx', flatgeobuf_decode_feature E (fuel + 1) ctx layer shape
          = some (Defined.ok (0, ctx', shape)) ∧
        ctx'.done = true ∧ ctx'.offset = ctx.offset) ∧
    (VSIFEofL (VSIFReadL ctx.file 4).2 = false →
      ∃ ctx', flatgeobuf_decode_feature E (fuel + 1) ctx layer shape
          = some (Defined.ok (-1, ctx', shape)) ∧
        ctx'.done = ctx.done ∧ ctx'.offset = ctx.offset) := by
  constructor
  · intro heof
    rw [flatgeobuf_decode_feature]
    simp only [hfail, heof, ne_eq, not_false_eq_true, if_true]
    exact ⟨_, rfl, rfl, rfl⟩
  · intro heof
    rw [flatgeobuf_decode_feature]
    simp only [hfail, heof, ne_eq, not_false_eq_true, if_true]
    exact ⟨_, rfl, rfl, rfl⟩

/-- Witness for C12: a call at the end of an empty stream, and a call on a
device that fails at byte 0 of a file of 4 bytes. -/
theorem decode_feature_prefix_read_fails_witness :
    ((VSIFReadL ctxAtEnd.file 4).1.length ≠ 4 ∧
      VSIFEofL (VSIFReadL ctxAtEnd.file 4).2 = true ∧
      ∃ ctx', flatgeobuf_decode_feature toyExternals (0 + 1) ctxAtEnd ⟨[0]⟩ emptyShape
          = some (Defined.ok (0, ctx', emptyShape)) ∧
        ctx'.done = true ∧ ctx'.offset = ctxAtEnd.offset) ∧
    ((VSIFReadL ctxDeviceError.file 4).1.length ≠ 4 ∧
      VSIFEofL (VSIFReadL ctxDeviceError.file 4).2 = false ∧
      ∃ ctx', flatgeobuf_decode_feature toyExternals (0 + 1) ctxDeviceError ⟨[0]⟩ emptyShape
          = some (Defined.ok (-1, ctx', emptyShape)) ∧
        ctx'.done = ctxDeviceError.done ∧ ctx'.offset = ctxDeviceError.offset) :=
  ⟨⟨by decide, by decide,
    (decode_feature_prefix_read_fails toyExternals 0 ctxAtEnd ⟨[0]⟩ emptyShape
      (by decide)).1 (by decide)⟩,
   ⟨by decide, by decide,
    (decode_feature_prefix_read_fails toyExternals 0 ctxDeviceError ⟨[0]⟩ emptyShape
      (by decide)).2 (by decide)⟩⟩

/-- C14 (fails on the code): the header declares column 0 with the name
`name`.  After `flatgeobuf_decode_header` the context has one column, of type
`string`, whose name reads `name`; after one successful
`flatgeobuf_decode_feature` the type is unchanged and the name pointer, which
points into the scratch buffer, reads the empty string. -/
theorem column_name_lost_after_decode_feature :
    (flatgeobuf_decode_header toyExternalsSchema 3
      (flatgeobuf_check_magicbytes ctxSchemaFile).2).map (Defined.map (fun r => r.1))
      = some (Defined.ok 0) ∧
    ctxSchemaHeader.columns_len = 1 ∧
    column_type ctxSchemaHeader 0 = ColumnType.string ∧
    column_name ctxSchemaHeader 0 = [110, 97, 109, 101] ∧
    (flatgeobuf_decode_feature toyExternalsSchema 3 ctxSchemaHeader ⟨[0]⟩ emptyShape).map
      (Defined.map (fun r => (r.1, r.2.2.values)))
      = some (Defined.ok (0, some [Value.str [120]])) ∧
    afterSchemaFeature.2.1.columns_len = 1 ∧
    column_type afterSchemaFeature.2.1 0 = ColumnType.string ∧
    column_name afterSchemaFeature.2.1 0 = [] := by
  decide

/-! ## Attribute value decoder: further claims -/

/-- C15 (fails on the code): with the wanted list `[0, 1]`,
`flatgeobuf_decode_properties` returns 0 on the record of 0 bytes and on the
record `00 00 | 01 00 00 00 | 61`; the positions of the columns that do not
appear in the record are slots of the `malloc`ed array that were never
assigned, not null pointers. -/
theorem absent_columns_left_unassigned :
    flatgeobuf_decode_properties 1 ctxEmptyRecord ⟨[0, 1]⟩ emptyShape
      = some (Defined.ok (0, { geometry := none, numvalues := 2,
                               values := some [Value.uninit, Value.uninit] })) ∧
    flatgeobuf_decode_properties 2 ctxOnlyFirstColumn ⟨[0, 1]⟩ emptyShape
      = some (Defined.ok (0, { geometry := none, numvalues := 2,
                               values := some [Value.str [97], Value.uninit] })) ∧
    Value.uninit ≠ Value.null := by
  decide

/-- C16 as stated fails: with the empty wanted list the decoder returns 0 on
an attribute record of 1 byte, whatever the fuel. -/
theorem empty_wanted_accepts_one_byte_record :
    ctxOneByteRecord.properties_size = 1 ∧
    ∀ fuel, flatgeobuf_decode_properties fuel ctxOneByteRecord ⟨[]⟩ emptyShape
      = some (Defined.ok (0, emptyShape)) :=
  ⟨rfl, fun _ => rfl⟩

/-- C16, amended: when the 16-bit count of wanted columns is not 0,
`flatgeobuf_decode_properties` returns -1 on every attribute record of size 1
or 2, whatever the fuel; on the record of size 0 it returns 0 for every
wanted list, and every slot of the output array it has allocated is still
unassigned. -/
theorem decode_properties_small_record {G : Type} (ctx : flatgeobuf_ctx) (layer : layerObj)
    (shape : shapeObj G) :
    (layer.numitems % 65536 ≠ 0 → ctx.properties_size = 1 ∨ ctx.properties_size = 2 →
      ∀ fuel, ∃ shape', flatgeobuf_decode_properties fuel ctx layer shape
        = some (Defined.ok (-1, shape'))) ∧
    (ctx.properties_size = 0 →
      ∀ fuel, flatgeobuf_decode_properties (fuel + 1) ctx layer shape =
        some (Defined.ok (0, if layer.numitems % 65536 = 0 then shape
                 else { shape with numvalues := layer.numitems % 65536,
                                   values := some (List.replicate (layer.numitems % 65536)
                                     Value.uninit) }))) := by
  constructor
  · intro hwanted hsize fuel
    unfold flatgeobuf_decode_properties
    simp only [hwanted, if_false]
    rw [if_pos (by omega)]
    exact ⟨_, rfl⟩
  · intro hsize fuel
    unfold flatgeobuf_decode_properties
    by_cases hwanted : layer.numitems % 65536 = 0
    · simp only [hwanted, if_true]
    · simp only [hwanted, if_false, hsize]
      rw [if_neg (by omega), loop_succ]
      unfold decode_properties_pass
      simp only [hsize, Nat.not_lt_zero, if_false]

/-- Witness for C16, amended: the record `07` and the record of 0 bytes, with
the wanted list `[0, 1]`. -/
theorem decode_properties_small_record_witness :
    ((layerObj.numitems ⟨[0, 1]⟩ % 65536 ≠ 0 ∧
        (ctxOneByteRecord.properties_size = 1 ∨ ctxOneByteRecord.properties_size = 2)) ∧
      ∀ fuel, ∃ shape', flatgeobuf_decode_properties fuel ctxOneByteRecord ⟨[0, 1]⟩ emptyShape
        = some (Defined.ok (-1, shape'))) ∧
    (ctxEmptyRecord.properties_size = 0 ∧
      ∀ fuel, flatgeobuf_decode_properties (fuel + 1) ctxEmptyRecord ⟨[0, 1]⟩ emptyShape =
        some (Defined.ok (0, if layerObj.numitems ⟨[0, 1]⟩ % 65536 = 0 then emptyShape
                 else { emptyShape with numvalues := layerObj.numitems ⟨[0, 1]⟩ % 65536,
                                        values := some (List.replicate
                                          (layerObj.numitems ⟨[0, 1]⟩ % 65536) Value.uninit) }))) :=
  ⟨⟨⟨by decide, by decide⟩,
    (decode_properties_small_record ctxOneByteRecord ⟨[0, 1]⟩ emptyShape).1 (by decide)
      (by decide)⟩,
   ⟨by decide, (decode_properties_small_record ctxEmptyRecord ⟨[0, 1]⟩ emptyShape).2 (by decide)⟩⟩

/-- The search of the wanted list ends at the first match from `j` on, or at
`j + n`. -/
theorem find_wanted_spec (indexinfos : List Int) (i : Nat) :
    ∀ (n j : Nat),
      j ≤ find_wanted indexinfos i n j ∧ find_wanted indexinfos i n j ≤ j + n ∧
      (find_wanted indexinfos i n j < j + n →
        indexinfos.getD (find_wanted indexinfos i n j) 0 = (i : Int)) ∧
      ∀ k, j ≤ k → k < find_wanted indexinfos i n j → indexinfos.getD k 0 ≠ (i : Int) := by
  intro n
  induction n with
  | zero =>
    intro j
    simp only [find_wanted]
    exact ⟨le_refl _, by omega, by omega, by omega⟩
  | succ n ih =>
    intro j
    simp only [find_wanted]
    split
    · rename_i h
      exact ⟨le_refl _, by omega, fun _ => h, by omega⟩
    · rename_i h
      obtain ⟨h1, h2, h3, h4⟩ := ih (j + 1)
      refine ⟨by omega, by omega, fun hl => h3 (by omega), fun k hk hk' => ?_⟩
      by_cases hkj : k = j
      · subst hkj; exact h
      · exact h4 k (by omega) hk'

/-- The first position of the wanted list that holds `i`, found by the
search. -/
theorem find_wanted_first (indexinfos : List Int) (i n j : Nat) (hj : j < n)
    (hji : indexinfos.getD j 0 = (i : Int)) (hmin : ∀ k, k < j → indexinfos.getD k 0 ≠ (i : Int)) :
    find_wanted indexinfos i n 0 = j := by
  obtain ⟨_, h2, h3, h4⟩ := find_wanted_spec indexinfos i n 0
  rcases Nat.lt_trichotomy (find_wanted indexinfos i n 0) j with hlt | heq | hgt
  · exact absurd (h3 (by omega)) (hmin _ hlt)
  · exact heq
  · exact absurd hji (h4 j (by omega) hgt)

/-- Function `flatgeobuf_decode_properties` past its two guards. -/
theorem decode_properties_eq_loop {G : Type} (fuel : Nat) (ctx : flatgeobuf_ctx)
    (layer : layerObj) (shape : shapeObj G) (hwanted : layer.numitems % 65536 ≠ 0)
    (hsize : ¬ (ctx.properties_size > 0 ∧ ctx.properties_size < 2 + 1)) :
    flatgeobuf_decode_properties fuel ctx layer shape =
      finish_properties shape (layer.numitems % 65536)
        (decode_properties_loop ctx layer.iteminfo (layer.numitems % 65536) fuel 0
          (List.replicate (layer.numitems % 65536) Value.uninit)) := by
  unfold flatgeobuf_decode_properties finish_properties
  simp only [hwanted, if_false, hsize]

/-- The pass of the loop at a string or datetime pair for a wanted column
that lies within the record. -/
theorem pass_string_pair (ctx : flatgeobuf_ctx) (indexinfos : List Int) (numvalues : Nat)
    (o j : Nat) (values : List Value)
    (hmem : ctx.properties_size ≤ ctx.properties.length)
    (hsize : ctx.properties_size < 4294967296)
    (hcol : readLE ctx.properties o 2 < ctx.columns_len)
    (hty : column_type ctx (readLE ctx.properties o 2) = ColumnType.string ∨
      column_type ctx (readLE ctx.properties o 2) = ColumnType.datetime)
    (hpair : o + 6 + readLE ctx.properties (o + 2) 4 ≤ ctx.properties_size)
    (hj : find_wanted indexinfos (readLE ctx.properties o 2) numvalues 0 = j)
    (hfound : j < numvalues) :
    decode_properties_pass ctx indexinfos numvalues o values =
      Pass.next (o + 6 + readLE ctx.properties (o + 2) 4)
        (values.set j (Value.str ((ctx.properties.drop (o + 6)).take
          (readLE ctx.properties (o + 2) 4)))) := by
  have h1 : (o + 1) % 4294967296 = o + 1 := Nat.mod_eq_of_lt (by omega)
  have h2 : (o + 2) % 4294967296 = o + 2 := Nat.mod_eq_of_lt (by omega)
  have h3 : (o + 2 + 4) % 4294967296 = o + 6 := Nat.mod_eq_of_lt (by omega)
  have h4 : (o + 6 + readLE ctx.properties (o + 2) 4) % 4294967296 =
      o + 6 + readLE ctx.properties (o + 2) 4 := Nat.mod_eq_of_lt (by omega)
  have h5 : (readLE ctx.properties (o + 2) 4 + 1) % 4294967296 =
      readLE ctx.properties (o + 2) 4 + 1 := Nat.mod_eq_of_lt (by omega)
  have h6 : ((ctx.properties.drop (o + 6)).take (readLE ctx.properties (o + 2) 4)).length =
      readLE ctx.properties (o + 2) 4 := by
    rw [List.length_take, List.length_drop]
    omega
  unfold decode_properties_pass
  simp only [h1, h2, show o + 1 < ctx.properties_size by omega, if_true, ge_iff_le,
    show ¬ ctx.columns_len ≤ readLE ctx.properties o 2 by omega, if_false, hj, hfound,
    decide_True]
  rcases hty with hty | hty <;> rw [hty] <;>
    simp only [show ¬ o + 2 + 4 > ctx.properties_size by omega, if_false, h3, h4, h5, h6,
      if_true, lt_self_iff_false, or_self]

/-- A pass of the loop keeps the length of the output array. -/
theorem pass_length (ctx : flatgeobuf_ctx) (indexinfos : List Int) (numvalues : Nat)
    (o o' : Nat) (values values' : List Value)
    (h : decode_properties_pass ctx indexinfos numvalues o values = Pass.next o' values') :
    values'.length = values.length := by
  unfold decode_properties_pass at h
  simp only [] at h
  split at h
  · split at h
    · exact absurd h (by simp)
    · cases hty : column_type ctx (readLE ctx.properties o 2) <;> rw [hty] at h <;>
        simp only [parse_value] at h
      case datetime | string =>
        split at h
        · exact absurd h (by simp)
        · split at h
          · split at h
            · exact absurd h (by simp)
            · simp only [Pass.next.injEq] at h
              rw [← h.2, List.length_set]
          · simp only [Pass.next.injEq] at h
            rw [← h.2]
      case other =>
        simp only [Pass.next.injEq] at h
        rw [← h.2]
      all_goals
        simp only [Pass.next.injEq] at h
        rw [← h.2]
        split
        · rw [List.length_set]
        · rfl
  · exact absurd h (by simp)

/-- The state of the loop after `n` passes keeps the length of the output
array. -/
theorem scan_state_length (ctx : flatgeobuf_ctx) (indexinfos : List Int) (numvalues : Nat)
    (values : List Value) :
    ∀ (n o : Nat) (v : List Value),
      scan_state ctx indexinfos numvalues values n = some (o, v) → v.length = values.length := by
  intro n
  induction n with
  | zero =>
    intro o v h
    simp only [scan_state, Option.some.injEq, Prod.mk.injEq] at h
    rw [← h.2]
  | succ n ih =>
    intro o v h
    simp only [scan_state] at h
    split at h
    · exact absurd h (by simp)
    · rename_i o1 v1 h1
      split at h
      · rename_i o2 v2 h2
        simp only [Option.some.injEq, Prod.mk.injEq] at h
        rw [← h.2, pass_length ctx indexinfos numvalues o1 o2 v1 v2 h2]
        exact ih o1 v1 h1
      · exact absurd h (by simp)

/-- A loop with fuel for `n` more passes than `fuel` goes on, after `n`
passes, from the state `scan_state` gives. -/
theorem loop_of_scan_state (ctx : flatgeobuf_ctx) (indexinfos : List Int) (numvalues : Nat)
    (values : List Value) :
    ∀ (n o : Nat) (v : List Value),
      scan_state ctx indexinfos numvalues values n = some (o, v) → ∀ fuel,
      decode_properties_loop ctx indexinfos numvalues (n + fuel) 0 values
        = decode_properties_loop ctx indexinfos numvalues fuel o v := by
  intro n
  induction n with
  | zero =>
    intro o v h fuel
    simp only [scan_state, Option.some.injEq, Prod.mk.injEq] at h
    rw [Nat.zero_add, ← h.1, ← h.2]
  | succ n ih =>
    intro o v h fuel
    simp only [scan_state] at h
    split at h
    · exact absurd h (by simp)
    · rename_i o1 v1 h1
      split at h
      · rename_i o2 v2 h2
        simp only [Option.some.injEq, Prod.mk.injEq] at h
        rw [show n + 1 + fuel = n + (fuel + 1) by omega, ih o1 v1 h1 (fuel + 1), loop_succ, h2,
          ← h.1, ← h.2]
      · exact absurd h (by simp)

/-- The cursor after a pair is the cursor before it plus 2 plus the width of
the value, in 32-bit arithmetic. -/
theorem pair_end_width (ctx : flatgeobuf_ctx) (o o' : Nat) (h : pair_end ctx o = some o') :
    o' = (o + 2 + value_width ctx o) % 4294967296 := by
  unfold pair_end at h
  simp only at h
  split at h
  · split at h
    · exact absurd h (by simp)
    · unfold value_width
      cases hty : column_type ctx (readLE ctx.properties o 2) <;> rw [hty] at h <;>
        simp only at h
      case datetime | string =>
        split at h
        · exact absurd h (by simp)
        · simp only [Option.some.injEq] at h
          subst h
          simp only [Nat.add_mod, Nat.mod_mod]
          omega
      all_goals
        simp only [Option.some.injEq] at h
        subst h
        simp only [Nat.add_mod, Nat.mod_mod, Nat.add_zero]
  · exact absurd h (by simp)

/-- C18 (fails on the code): the record `00 00 | FC FF FF FF` is a pair for the
string column 0 with the declared length 4294967292; behind it the 32-bit
cursor stands at 2, whatever the wanted list.  With the wanted list `[1]`
the pair is passed over, the bytes `FC FF` at cursor 2 read as the column
index 65532 and `flatgeobuf_decode_properties` returns -1.  With the wanted
list `[0]` the pass copies 4294967292 bytes from behind the 6 bytes of the
record: the call has no status. -/
theorem wanted_list_changes_outcome :
    pair_end ctxOverlongOfTwo 0 = some 2 ∧
    (∀ fuel, flatgeobuf_decode_properties (fuel + 2) ctxOverlongOfTwo ⟨[1]⟩ emptyShape
      = some (Defined.ok (-1, { geometry := none, numvalues := 1,
                                values := some [Value.uninit] }))) ∧
    (∀ fuel, flatgeobuf_decode_properties (fuel + 1) ctxOverlongOfTwo ⟨[0]⟩ emptyShape
      = some Defined.fault) := by
  refine ⟨by decide, fun fuel => ?_, fun fuel => ?_⟩
  · have h1 : decode_properties_pass ctxOverlongOfTwo [1] 1 0 [Value.uninit]
        = Pass.next 2 [Value.uninit] := by decide
    have h2 : decode_properties_pass ctxOverlongOfTwo [1] 1 2 [Value.uninit]
        = Pass.returned (-1) [Value.uninit] := by decide
    rw [decode_properties_eq_loop _ _ _ _ (by decide) (by decide)]
    show finish_properties emptyShape 1
      (decode_properties_loop ctxOverlongOfTwo [1] 1 (fuel + 1 + 1) 0 [Value.uninit]) = _
    rw [loop_succ, h1]
    simp only []
    rw [loop_succ, h2]
    rfl
  · have h1 : decode_properties_pass ctxOverlongOfTwo [0] 1 0 [Value.uninit] = Pass.fault := by
      decide
    rw [decode_properties_eq_loop _ _ _ _ (by decide) (by decide)]
    show finish_properties emptyShape 1
      (decode_properties_loop ctxOverlongOfTwo [0] 1 (fuel + 1) 0 [Value.uninit]) = _
    rw [loop_succ, h1]
    rfl
/-! ## Failures and guards: the claims -/

/-- C19 as stated fails: a feature record that declares 5 bytes and holds 2
makes `flatgeobuf_decode_feature` return -1 with `offset` moved from 0 to 4;
a header block that declares 9 bytes and holds 1 makes
`flatgeobuf_decode_header` return -1 with `offset` moved from 8 to 12; a
failed seek makes `flatgeobuf_index_skip` return -1 with `offset` moved from
14 to 134. -/
theorem failure_moves_offset :
    (ctxTruncatedRecord.offset = 0 ∧
      (flatgeobuf_decode_feature toyExternals 2 ctxTruncatedRecord ⟨[]⟩ emptyShape).map
        (Defined.map (fun r => (r.1, r.2.1.offset))) = some (Defined.ok (-1, 4))) ∧
    (ctxTruncatedHeader.offset = 8 ∧
      (flatgeobuf_decode_header toyExternals 3 ctxTruncatedHeader).map
        (Defined.map (fun r => (r.1, r.2.offset))) = some (Defined.ok (-1, 12))) ∧
    (ctxNoSeek.offset = 14 ∧
      (flatgeobuf_index_skip toyExternals ctxNoSeek).1 = -1 ∧
      (flatgeobuf_index_skip toyExternals ctxNoSeek).2.offset = 134) := by
  decide

/-- The offset left by a failing `flatgeobuf_decode_header`. -/
theorem decode_header_failure_offset {G : Type} (E : Externals G) (fuel : Nat)
    (ctx ctx' : flatgeobuf_ctx)
    (h : flatgeobuf_decode_header E fuel ctx = some (Defined.ok (-1, ctx'))) :
    ctx'.offset =
      if ctx.offset = 8 ∧ ctx.file.seekable = true ∧
          (VSIFReadL (VSIFSeekL ctx.file 8).2 4).1.length = 4
      then ctx.offset + 4 else ctx.offset := by
  unfold flatgeobuf_decode_header at h
  split at h
  · rename_i hoff
    have hoff8 : ¬ ctx.offset = 8 := hoff
    simp only [Option.some.injEq, Defined.ok.injEq, Prod.mk.injEq, true_and] at h
    subst h
    rw [if_neg (fun hc => hoff8 hc.1)]
  · rename_i hoff
    simp only [ne_eq, not_not] at hoff
    have hoff8 : ctx.offset = 8 := hoff
    rw [hoff8] at h
    simp only [] at h
    split at h
    · rename_i hseek
      simp only [Option.some.injEq, Defined.ok.injEq, Prod.mk.injEq, true_and] at h
      subst h
      have hns : ¬ ctx.file.seekable = true := by
        intro hs
        simp [VSIFSeekL, hs] at hseek
      rw [if_neg (fun hc => hns hc.2.1)]
      exact hoff8.symm
    · rename_i hseek
      have hs : ctx.file.seekable = true := by
        by_contra hs
        simp [VSIFSeekL, hs] at hseek
      split at h
      · rename_i hgot
        simp only [Option.some.injEq, Defined.ok.injEq, Prod.mk.injEq, true_and] at h
        subst h
        rw [if_neg (fun hc => hgot hc.2.2)]
        exact hoff8.symm
      · rename_i hgot
        simp only [ne_eq, not_not] at hgot
        rw [if_pos ⟨hoff8, hs, hgot⟩]
        split at h
        · simp at h
        · rename_i ctx1 hens
          have hfr := ensure_buf_frame E fuel _ _ _ hens
          have hoff1 : ctx1.offset = 8 + 4 := congrArg flatgeobuf_ctx.offset hfr
          split at h
          · simp at h
          · split at h
            · simp only [Option.some.injEq, Defined.ok.injEq, Prod.mk.injEq, true_and] at h
              subst h
              rw [hoff8]
              exact hoff1
            · simp at h

/-- The offset left by a failing `flatgeobuf_decode_feature`. -/
theorem decode_feature_failure_offset {G : Type} (E : Externals G) (fuel : Nat)
    (ctx ctx' : flatgeobuf_ctx) (layer : layerObj) (shape shape' : shapeObj G)
    (h : flatgeobuf_decode_feature E fuel ctx layer shape = some (Defined.ok (-1, ctx', shape'))) :
    ctx'.offset =
      if (VSIFReadL ctx.file 4).1.length = 4 then ctx.offset + 4 else ctx.offset := by
  cases fuel with
  | zero => simp [flatgeobuf_decode_feature] at h
  | succ fuel =>
    rw [flatgeobuf_decode_feature] at h
    simp only [] at h
    split at h
    · rename_i hgot
      rw [if_neg hgot]
      split at h
      · simp at h
      · simp only [Option.some.injEq, Defined.ok.injEq, Prod.mk.injEq, true_and] at h
        obtain ⟨hc, _⟩ := h
        subst hc
        rfl
    · rename_i hgot
      simp only [ne_eq, not_not] at hgot
      rw [if_pos hgot]
      split at h
      · simp at h
      · rename_i ctx1 hens
        have hfr := ensure_buf_frame E fuel _ _ _ hens
        have hoff1 : ctx1.offset = ctx.offset + 4 := congrArg flatgeobuf_ctx.offset hfr
        clear hfr hens
        split at h
        · simp at h
        · split at h
          · simp only [Option.some.injEq, Defined.ok.injEq, Prod.mk.injEq, true_and] at h
            obtain ⟨hc, _⟩ := h
            subst hc
            exact hoff1
          · split at h
            · simp at h
            · simp at h
            · split at h
              · split at h
                · split at h
                  · simp at h
                  · simp at h
                  · simp at h
                · simp at h
              · simp at h

/-- C19, amended: when `flatgeobuf_decode_header` or
`flatgeobuf_decode_feature` returns -1, `offset` has its value from before
the call if the 4-byte length prefix was not read (offset guard, seek or
prefix read failed) and that value plus 4 if it was read; when
`flatgeobuf_index_skip` returns -1, `offset` is its value from before the
call plus the size of the index. -/
theorem failure_offsets {G : Type} (E : Externals G) (fuel : Nat)
    (ctx ctx' : flatgeobuf_ctx) (layer : layerObj) (shape shape' : shapeObj G) :
    (flatgeobuf_decode_header E fuel ctx = some (Defined.ok (-1, ctx')) →
      ctx'.offset =
        if ctx.offset = 8 ∧ ctx.file.seekable = true ∧
            (VSIFReadL (VSIFSeekL ctx.file 8).2 4).1.length = 4
        then ctx.offset + 4 else ctx.offset) ∧
    (flatgeobuf_decode_feature E fuel ctx layer shape = some (Defined.ok (-1, ctx', shape')) →
      ctx'.offset =
        if (VSIFReadL ctx.file 4).1.length = 4 then ctx.offset + 4 else ctx.offset) ∧
    (flatgeobuf_index_skip E ctx = (-1, ctx') →
      ctx'.offset = ctx.offset + E.PackedRTree_size ctx.features_count ctx.index_node_size) := by
  refine ⟨decode_header_failure_offset E fuel ctx ctx',
    decode_feature_failure_offset E fuel ctx ctx' layer shape shape', fun h => ?_⟩
  unfold flatgeobuf_index_skip at h
  simp only [] at h
  split at h
  · simp only [Prod.mk.injEq, true_and] at h
    subst h
    rfl
  · simp at h

/-- Witness for C19, amended: the truncated header, the truncated record and
the failed seek. -/
theorem failure_offsets_witness :
    (flatgeobuf_decode_header toyExternals 3 ctxTruncatedHeader =
        some (Defined.ok (-1, afterTruncatedHeader.2)) ∧
      afterTruncatedHeader.2.offset =
        if ctxTruncatedHeader.offset = 8 ∧ ctxTruncatedHeader.file.seekable = true ∧
            (VSIFReadL (VSIFSeekL ctxTruncatedHeader.file 8).2 4).1.length = 4
        then ctxTruncatedHeader.offset + 4 else ctxTruncatedHeader.offset) ∧
    (flatgeobuf_decode_feature toyExternals 2 ctxTruncatedRecord ⟨[]⟩ emptyShape =
        some (Defined.ok (-1, afterTruncatedRecord.2.1, afterTruncatedRecord.2.2)) ∧
      afterTruncatedRecord.2.1.offset =
        if (VSIFReadL ctxTruncatedRecord.file 4).1.length = 4
        then ctxTruncatedRecord.offset + 4 else ctxTruncatedRecord.offset) ∧
    (flatgeobuf_index_skip toyExternals ctxNoSeek =
        (-1, (flatgeobuf_index_skip toyExternals ctxNoSeek).2) ∧
      (flatgeobuf_index_skip toyExternals ctxNoSeek).2.offset =
        ctxNoSeek.offset +
          toyExternals.PackedRTree_size ctxNoSeek.features_count ctxNoSeek.index_node_size) :=
  ⟨⟨rfl, (failure_offsets toyExternals 3 ctxTruncatedHeader afterTruncatedHeader.2 ⟨[]⟩
      emptyShape emptyShape).1 rfl⟩,
   ⟨rfl, (failure_offsets toyExternals 2 ctxTruncatedRecord afterTruncatedRecord.2.1 ⟨[]⟩
      emptyShape afterTruncatedRecord.2.2).2.1 rfl⟩,
   ⟨rfl, (failure_offsets toyExternals 0 ctxNoSeek (flatgeobuf_index_skip toyExternals ctxNoSeek).2
      ⟨[]⟩ emptyShape emptyShape).2.2 rfl⟩⟩

/-- A successful `flatgeobuf_check_magicbytes` leaves the offset at 8. -/
theorem check_magicbytes_ok_offset (ctx ctx' : flatgeobuf_ctx)
    (h : flatgeobuf_check_magicbytes ctx = (0, ctx')) : ctx'.offset = 8 := by
  unfold flatgeobuf_check_magicbytes at h
  split at h
  · simp at h
  · rename_i hoff
    simp only [ne_eq, not_not] at hoff
    simp only [] at h
    split at h
    · simp at h
    · split at h
      · simp at h
      · simp only [Prod.mk.injEq, true_and] at h
        subst h
        show ctx.offset + FLATGEOBUF_MAGICBYTES_SIZE = 8
        rw [hoff]
        rfl

/-- C20: `flatgeobuf_check_magicbytes` returns -1 whenever `offset` is not 0
and `flatgeobuf_decode_header` returns -1 whenever `offset` is not 8, both
with the context, file handle included, exactly as it was; hence a second
call of either on the context left by its own success returns -1. -/
theorem guards_reject_wrong_offset {G : Type} (E : Externals G) (fuel fuel' : Nat)
    (ctx ctx1 ctx2 : flatgeobuf_ctx) :
    (ctx.offset ≠ 0 → flatgeobuf_check_magicbytes ctx = (-1, ctx)) ∧
    (ctx.offset ≠ 8 → flatgeobuf_decode_header E fuel ctx = some (Defined.ok (-1, ctx))) ∧
    (flatgeobuf_check_magicbytes ctx = (0, ctx1) →
      flatgeobuf_check_magicbytes ctx1 = (-1, ctx1)) ∧
    (flatgeobuf_decode_header E fuel ctx = some (Defined.ok (0, ctx2)) →
      flatgeobuf_decode_header E fuel' ctx2 = some (Defined.ok (-1, ctx2))) := by
  have hcheck : ∀ c : flatgeobuf_ctx, c.offset ≠ 0 → flatgeobuf_check_magicbytes c = (-1, c) := by
    intro c hc
    unfold flatgeobuf_check_magicbytes
    rw [if_pos hc]
  have hheader : ∀ (f : Nat) (c : flatgeobuf_ctx), c.offset ≠ 8 →
      flatgeobuf_decode_header E f c = some (Defined.ok (-1, c)) := by
    intro f c hc
    have hc8 : c.offset ≠ FLATGEOBUF_MAGICBYTES_SIZE := hc
    unfold flatgeobuf_decode_header
    rw [if_pos hc8]
  refine ⟨hcheck ctx, hheader fuel ctx, fun h => ?_, fun h => ?_⟩
  · exact hcheck ctx1 (by rw [check_magicbytes_ok_offset ctx ctx1 h]; decide)
  · obtain ⟨_, hoff, _, _⟩ := decode_header_ok E fuel ctx ctx2 h
    exact hheader fuel' ctx2 (by omega)

/-- Witness for C20: the contexts of `ctxSignature` before and after the
signature check and the header decode. -/
theorem guards_reject_wrong_offset_witness :
    (ctxAfterHeader.offset ≠ 0 ∧
      flatgeobuf_check_magicbytes ctxAfterHeader = (-1, ctxAfterHeader)) ∧
    (ctxAfterHeader.offset ≠ 8 ∧
      flatgeobuf_decode_header toyExternals 3 ctxAfterHeader = some (Defined.ok (-1, ctxAfterHeader))) ∧
    (flatgeobuf_check_magicbytes ctxSignature = (0, ctxAfterSignature) ∧
      flatgeobuf_check_magicbytes ctxAfterSignature = (-1, ctxAfterSignature)) ∧
    (flatgeobuf_decode_header toyExternals 3 ctxAfterSignature = some (Defined.ok (0, ctxAfterHeader)) ∧
      flatgeobuf_decode_header toyExternals 5 ctxAfterHeader = some (Defined.ok (-1, ctxAfterHeader))) :=
  ⟨⟨by decide, (guards_reject_wrong_offset toyExternals 3 3 ctxAfterHeader ctxAfterHeader
      ctxAfterHeader).1 (by decide)⟩,
   ⟨by decide, (guards_reject_wrong_offset toyExternals 3 3 ctxAfterHeader ctxAfterHeader
      ctxAfterHeader).2.1 (by decide)⟩,
   ⟨rfl, (guards_reject_wrong_offset toyExternals 3 3 ctxSignature ctxAfterSignature
      ctxAfterHeader).2.2.1 rfl⟩,
   ⟨rfl, (guards_reject_wrong_offset toyExternals 3 5 ctxAfterSignature ctxAfterSignature
      ctxAfterHeader).2.2.2 rfl⟩⟩

/-! ## Offsets, termination and bounds: the claims -/

/-- C25 (fails on the code): on the file of `ctxCutAfterSkipped`, read from a
fresh context at byte 0, `flatgeobuf_check_magicbytes` and
`flatgeobuf_decode_header` return 0 with `ctx.offset` at the read position
(8, then 14); the call of `flatgeobuf_decode_feature` that follows skips the
record without geometry, fails inside on the cut record, and still returns 0
without setting `done`, with `ctx.offset` 24 and the read position 25. -/
theorem decode_feature_leaves_offset_behind_position :
    ctxCutAfterSkipped = flatgeobuf_init_ctx ctxCutAfterSkipped.file ∧
      ctxCutAfterSkipped.file.pos = 0 ∧
      (cutAfterSignature.1, cutAfterSignature.2.done, cutAfterSignature.2.offset,
        cutAfterSignature.2.file.pos) = (0, false, 8, 8) ∧
      (flatgeobuf_decode_header toyExternals 3 cutAfterSignature.2).map
        (Defined.map (fun r => (r.1, r.2.done, r.2.offset, r.2.file.pos)))
        = some (Defined.ok (0, false, 14, 14)) ∧
      (flatgeobuf_decode_feature toyExternals 4 cutAfterHeader.2 ⟨[]⟩ emptyShape).map
        (Defined.map (fun r => (r.1, r.2.1.done, r.2.1.offset, r.2.1.file.pos)))
        = some (Defined.ok (0, false, 24, 25)) := by
  refine ⟨rfl, rfl, ?_, ?_, ?_⟩ <;> decide

/-- A pass that ends where it started is repeated for ever: the loop returns
for no amount of fuel. -/
theorem loop_stuck (ctx : flatgeobuf_ctx) (indexinfos : List Int) (numvalues : Nat)
    (o : Nat)
    (h : ∀ values, ∃ values',
      decode_properties_pass ctx indexinfos numvalues o values = Pass.next o values') :
    ∀ (fuel : Nat) (values : List Value),
      decode_properties_loop ctx indexinfos numvalues fuel o values = none := by
  intro fuel
  induction fuel with
  | zero => intro values; rfl
  | succ fuel ih =>
    intro values
    obtain ⟨v, hv⟩ := h values
    rw [loop_succ, hv]
    exact ih v

/-- C26 (fails on the code): on the 6-byte record `00 00 | FA FF FF FF` of a
string column 0, with the wanted list `[1]`, the declared length 4294967290
brings the 32-bit cursor from 6 back to 0, so the iteration that starts at
cursor 0 ends at cursor 0 and `flatgeobuf_decode_properties` returns for no
amount of fuel. -/
theorem decode_properties_wrapping_length_never_returns :
    pair_end ctxWrappingLength 0 = some 0 ∧
      ∀ fuel : Nat,
        flatgeobuf_decode_properties fuel ctxWrappingLength ⟨[1]⟩ emptyShape = none := by
  have hp : pair_end ctxWrappingLength 0 = some 0 := by decide
  refine ⟨hp, fun fuel => ?_⟩
  have hpass : ∀ values, ∃ values',
      decode_properties_pass ctxWrappingLength [1] 1 0 values = Pass.next 0 values' :=
    fun values => ⟨values, rfl⟩
  have hl := loop_stuck ctxWrappingLength [1] 1 0 hpass fuel (List.replicate 1 Value.uninit)
  rw [decode_properties_eq_loop _ _ _ _ (by decide) (by decide)]
  show finish_properties emptyShape 1
    (decode_properties_loop ctxWrappingLength [1] 1 fuel 0 (List.replicate 1 Value.uninit)) = _
  rw [hl]
  rfl

/-- With a `realloc(p, 0)` that returns a null pointer the recursion of
`flatgeobuf_ensure_buf` ends: `k` doublings bring the 32-bit `buf_size` to 0
at the latest, the buffer is then released and allocated afresh. -/
theorem ensure_buf_returns_by_doubling {G : Type} (E : Externals G)
    (hE : E.realloc_zero_null = true) (size : Nat) :
    ∀ (k : Nat) (ctx : flatgeobuf_ctx), 4294967296 ∣ ctx.buf_size * 2 ^ k →
      ctx.buf_size < 4294967296 →
      ∃ ctx', flatgeobuf_ensure_buf E (k + 2) ctx size = some ctx' := by
  intro k
  induction k with
  | zero =>
    intro ctx hd hlt
    have h0 : ctx.buf_size = 0 := by
      rw [pow_zero, Nat.mul_one] at hd
      exact Nat.eq_zero_of_dvd_of_lt hd hlt
    rw [flatgeobuf_ensure_buf]
    cases hbuf : ctx.buf with
    | none => exact ⟨_, rfl⟩
    | some buf =>
      simp only []
      split
      · rw [flatgeobuf_ensure_buf]
        simp only [h0, realloc, hE, Nat.zero_mul, Nat.zero_mod, and_self, if_true]
        exact ⟨_, rfl⟩
      · exact ⟨_, rfl⟩
  | succ k ih =>
    intro ctx hd hlt
    rw [flatgeobuf_ensure_buf]
    cases hbuf : ctx.buf with
    | none => exact ⟨_, rfl⟩
    | some buf =>
      simp only []
      split
      · apply ih
        · show 4294967296 ∣ (ctx.buf_size * 2 % 4294967296) * 2 ^ k
          have h1 : (ctx.buf_size * 2 % 4294967296) * 2 ^ k ≡ ctx.buf_size * 2 * 2 ^ k
              [MOD 4294967296] := (Nat.mod_modEq _ _).mul_right _
          have h2 : ctx.buf_size * 2 * 2 ^ k = ctx.buf_size * 2 ^ (k + 1) := by
            rw [pow_succ]; ring
          rw [h2] at h1
          exact (Nat.modEq_zero_iff_dvd.mp (h1.trans (Nat.modEq_zero_iff_dvd.mpr hd)))
        · show ctx.buf_size * 2 % 4294967296 < 4294967296
          exact Nat.mod_lt _ (by decide)
      · exact ⟨_, rfl⟩

/-- With a `realloc(p, 0)` that returns a null pointer, `flatgeobuf_ensure_buf`
returns within 34 calls on every context with a 32-bit `buf_size`. -/
theorem ensure_buf_returns_with_null_realloc {G : Type} (E : Externals G)
    (hE : E.realloc_zero_null = true) (size : Nat) (ctx : flatgeobuf_ctx)
    (hlt : ctx.buf_size < 4294967296) :
    ∃ ctx', flatgeobuf_ensure_buf E 34 ctx size = some ctx' :=
  ensure_buf_returns_by_doubling E hE size 32 ctx (Dvd.intro_left _ rfl) hlt

/-- With a `realloc(p, 0)` that returns a block, a context that holds a
buffer of recorded size 0 never grows it: the recursion of
`flatgeobuf_ensure_buf` ends for no amount of fuel. -/
theorem ensure_buf_zero_size_stuck {G : Type} (E : Externals G)
    (hE : E.realloc_zero_null = false) (size : Nat) (hsize : 0 < size) :
    ∀ (fuel : Nat) (ctx : flatgeobuf_ctx) (buf : List Nat), ctx.buf = some buf →
      ctx.buf_size = 0 → flatgeobuf_ensure_buf E fuel ctx size = none := by
  intro fuel
  induction fuel with
  | zero => intro ctx buf _ _; rfl
  | succ fuel ih =>
    intro ctx buf hbuf h0
    rw [flatgeobuf_ensure_buf]
    simp only [hbuf, h0, hsize, if_true]
    exact ih _ (buf.take 0 ++ List.replicate (0 - buf.length) 0)
      (by simp [realloc, hE]) rfl

/-- The header decoder returns only once its buffer growth has returned. -/
theorem decode_header_waits_for_buf {G : Type} (E : Externals G) (fuel : Nat)
    (ctx : flatgeobuf_ctx) (hoff : ctx.offset = FLATGEOBUF_MAGICBYTES_SIZE)
    (hseek : ctx.file.seekable = true)
    (hread : (VSIFReadL { ctx.file with pos := ctx.offset, eof := false } 4).1.length = 4)
    (hens : flatgeobuf_ensure_buf E fuel
      { ctx with file := (VSIFReadL { ctx.file with pos := ctx.offset, eof := false } 4).2,
                 offset := ctx.offset + 4 }
      (readLE (VSIFReadL { ctx.file with pos := ctx.offset, eof := false } 4).1 0 4) = none) :
    flatgeobuf_decode_header E fuel ctx = none := by
  rw [flatgeobuf_decode_header]
  rw [if_neg (not_not.mpr hoff)]
  simp only [VSIFSeekL]
  rw [if_pos hseek]
  simp only []
  rw [if_neg (show ¬ ((0 : Int) = -1) by decide)]
  generalize VSIFReadL { ctx.file with pos := ctx.offset, eof := false } 4 = r at hread hens ⊢
  obtain ⟨got, file⟩ := r
  simp only [] at hread hens ⊢
  rw [if_neg (not_not.mpr hread), hens]

/-- C27 (fails on the code): `flatgeobuf_check_magicbytes` leaves a buffer
with `buf_size` 0; with a C library whose `realloc(p, 0)` returns a block,
the recursion of `flatgeobuf_ensure_buf` on that context ends for no amount
of fuel, for the requested size 1 and for the header length 2 that
`flatgeobuf_decode_header` requests next. -/
theorem ensure_buf_after_signature_never_returns :
    (flatgeobuf_check_magicbytes ctxSmallHeader).1 = 0 ∧
      (flatgeobuf_check_magicbytes ctxSmallHeader).2.buf_size = 0 ∧
      (∀ fuel : Nat, flatgeobuf_ensure_buf toyExternalsKeepZero fuel
        (flatgeobuf_check_magicbytes ctxSmallHeader).2 1 = none) ∧
      (∀ fuel : Nat, flatgeobuf_decode_header toyExternalsKeepZero fuel
        (flatgeobuf_check_magicbytes ctxSmallHeader).2 = none) := by
  refine ⟨by decide, by decide, fun fuel => ?_, fun fuel => ?_⟩
  · exact ensure_buf_zero_size_stuck toyExternalsKeepZero rfl 1 (by decide) fuel _
      [0x66, 0x67, 0x62, 0x03, 0x66, 0x67, 0x62, 0x01] (by decide) (by decide)
  · refine decode_header_waits_for_buf toyExternalsKeepZero fuel
      (flatgeobuf_check_magicbytes ctxSmallHeader).2 (by decide) (by decide) (by decide) ?_
    exact ensure_buf_zero_size_stuck toyExternalsKeepZero rfl _ (by decide) fuel _
      [0x66, 0x67, 0x62, 0x03, 0x66, 0x67, 0x62, 0x01] (by decide) (by decide)

/-- C28 (fails on the code): on the 3-byte record `00 00 | 07` of a wanted
`ubyte` column the value is read at index 4 of the record, two bytes past
its end: the call returns 0 and the text stored is that of the byte found
there, `42` for the memory `.. 09 2A` and `43` for the memory `.. 09 2B`
behind the same record. -/
theorem decode_properties_reads_past_record :
    ctxByteThenMemory.properties_size = 3 ∧
      ctxByteThenOtherMemory.properties_size = 3 ∧
      ctxByteThenMemory.properties.take 3 = ctxByteThenOtherMemory.properties.take 3 ∧
      flatgeobuf_decode_properties 2 ctxByteThenMemory ⟨[0]⟩ emptyShape
        = some (Defined.ok (0, { geometry := none, numvalues := 1,
                                 values := some [to_string_int8 ctxByteThenMemory.properties
                                   4] })) ∧
      to_string_int8 ctxByteThenMemory.properties 4 = Value.str [52, 50] ∧
      flatgeobuf_decode_properties 2 ctxByteThenOtherMemory ⟨[0]⟩ emptyShape
        = some (Defined.ok (0, { geometry := none, numvalues := 1,
                                 values := some [Value.str [52, 51]] })) := by
  decide

/-! ## Lemmas on the index search -/

/-- A read that is not short delivers the bytes of the file at its position. -/
theorem read_full (f : VSILFILE) (w : Nat) (h : (VSIFReadL f w).1.length = w) :
    (VSIFReadL f w).1 = (f.data.drop f.pos).take w := by
  simp only [VSIFReadL] at h ⊢
  unfold VSILFILE.readable at h ⊢
  cases hk : f.errorAt with
  | none => rfl
  | some k =>
    rw [hk] at h
    simp only [List.length_take, List.length_drop] at h
    simp only []
    rw [List.drop_take, List.take_take]
    congr 1
    omega

/-- The reader `readNode` delivers the record at the offset asked for when it
can be read, and throws otherwise; the handle stays on the same device. -/
theorem readNode_spec (T : PackedRTree) (ctx : flatgeobuf_ctx) (f : VSILFILE)
    (hf : same_device ctx.file f) (o : Nat) :
    (readNode ctx.offset f o T.record_width).1
      = (if node_readable T ctx o = true
         then some ((ctx.file.data.drop (ctx.offset + o)).take T.record_width) else none) ∧
    same_device ctx.file (readNode ctx.offset f o T.record_width).2 := by
  obtain ⟨hd, he, hs⟩ := hf
  have hr : f.readable = ctx.file.readable := by
    unfold VSILFILE.readable; rw [hd, he]
  unfold readNode VSIFSeekL node_readable
  by_cases hseek : f.seekable = true
  · rw [if_pos hseek]
    simp only []
    rw [if_neg (show ¬ ((0 : Int) = -1) by decide)]
    have hseek' : ctx.file.seekable = true := by rw [← hs]; exact hseek
    by_cases hlen : (VSIFReadL { f with pos := ctx.offset + o, eof := false }
        T.record_width).1.length = T.record_width
    · have hfull := read_full _ _ hlen
      rw [if_neg (not_not.mpr hlen)]
      have hlen' : ((ctx.file.readable.drop (ctx.offset + o)).take T.record_width).length
          = T.record_width := by
        rw [← hr]; exact hlen
      simp only [hseek', hlen', Bool.true_and, decide_True, if_true]
      refine ⟨?_, hd, he, hs⟩
      rw [hfull, hd]
    · rw [if_pos hlen]
      have hlen' : ¬ ((ctx.file.readable.drop (ctx.offset + o)).take T.record_width).length
          = T.record_width := by
        rw [← hr]; exact hlen
      simp only [hlen', decide_False, Bool.and_false, Bool.false_eq_true, if_false]
      exact ⟨trivial, hd, he, hs⟩
  · rw [if_neg hseek]
    simp only [neg_eq_iff_eq_neg, if_true]
    have hseek' : ctx.file.seekable = false := by
      rw [← hs]; exact Bool.eq_false_iff.mpr hseek
    simp only [hseek', Bool.false_and, Bool.false_eq_true, if_false]
    exact ⟨trivial, hd, he, hs⟩

/-- The reads of a work-list succeed when each of its nodes can be read, and
deliver their nodes. -/
theorem read_nodes_spec (T : PackedRTree) (ctx : flatgeobuf_ctx) :
    ∀ (work : List Nat) (f : VSILFILE), same_device ctx.file f →
      (read_nodes T (readNode ctx.offset) work f).1
        = (if work.all (node_readable T ctx) = true
           then some (work.map (fun o => (o, index_node T ctx o))) else none) ∧
      same_device ctx.file (read_nodes T (readNode ctx.offset) work f).2 := by
  intro work
  induction work with
  | nil => intro f hf; exact ⟨rfl, hf⟩
  | cons o work ih =>
    intro f hf
    obtain ⟨h1, h2⟩ := readNode_spec T ctx f hf o
    rw [read_nodes]
    generalize readNode ctx.offset f o T.record_width = r at h1 h2
    obtain ⟨res, f1⟩ := r
    simp only [] at h1 h2
    by_cases hro : node_readable T ctx o = true
    · rw [if_pos hro] at h1
      subst h1
      simp only []
      obtain ⟨g1, g2⟩ := ih f1 h2
      generalize read_nodes T (readNode ctx.offset) work f1 = r2 at g1 g2
      obtain ⟨res2, f2⟩ := r2
      simp only [] at g1 g2
      by_cases hall : work.all (node_readable T ctx) = true
      · rw [if_pos hall] at g1
        subst g1
        simp only [List.all_cons, hro, hall, Bool.and_self, if_true, List.map_cons]
        exact ⟨rfl, g2⟩
      · rw [if_neg hall] at g1
        subst g1
        simp only [List.all_cons, hro, hall, Bool.true_and, Bool.false_eq_true, if_false]
        exact ⟨trivial, g2⟩
    · rw [if_neg hro] at h1
      subst h1
      simp only [List.all_cons, hro, Bool.false_and, Bool.false_eq_true, if_false]
      exact ⟨trivial, h2⟩

/-- Filtering the nodes read is filtering the work-list. -/
theorem filter_nodes_read (g : Nat → NodeItem) (p : NodeItem → Bool) (work : List Nat) :
    (work.map (fun o => (o, g o))).filter (fun n => p n.2)
      = (work.filter (fun o => p (g o))).map (fun o => (o, g o)) := by
  induction work with
  | nil => rfl
  | cons o work ih =>
    simp only [List.map_cons, List.filter_cons]
    by_cases h : p (g o) = true
    · simp only [h, if_true, List.map_cons, ih]
    · simp only [h, if_false, ih]
      rfl

/-- The children of the nodes read are the children of the work-list. -/
theorem children_nodes_read (g : Nat → NodeItem) (ch : Nat → List Nat) (work : List Nat) :
    (work.map (fun o => (o, g o))).flatMap (fun n => ch n.1) = work.flatMap ch := by
  induction work with
  | nil => rfl
  | cons o work ih =>
    simp only [List.map_cons, List.flatMap_cons, ih]

/-- The traversal succeeds when every node it comes to can be read, and then
finds the items of the leaves that `pruned_leaves` lists. -/
theorem search_levels_spec (T : PackedRTree) (ctx : flatgeobuf_ctx) (rect : rectObj) :
    ∀ (level : Nat) (work : List Nat) (f : VSILFILE), same_device ctx.file f →
      (search_levels T ctx.features_count ctx.index_node_size (query_box rect)
        (readNode ctx.offset) level work f).1
        = (if (visited_from T ctx rect level work).all (node_readable T ctx) = true
           then some ((pruned_leaves T ctx rect level work).map (leaf_item T ctx))
           else none) := by
  intro level
  induction level with
  | zero =>
    intro work f hf
    obtain ⟨g1, g2⟩ := read_nodes_spec T ctx work f hf
    rw [search_levels]
    generalize read_nodes T (readNode ctx.offset) work f = r at g1 g2
    obtain ⟨res, f1⟩ := r
    simp only [] at g1 g2
    simp only [visited_from, pruned_leaves]
    by_cases hall : work.all (node_readable T ctx) = true
    · rw [if_pos hall] at g1
      subst g1
      simp only [hall, if_true]
      rw [filter_nodes_read (index_node T ctx) (fun n => (query_box rect).intersects n), List.map_map]
      rfl
    · rw [if_neg hall] at g1
      subst g1
      simp only [hall, Bool.false_eq_true, if_false]
  | succ level ih =>
    intro work f hf
    obtain ⟨g1, g2⟩ := read_nodes_spec T ctx work f hf
    rw [search_levels]
    generalize read_nodes T (readNode ctx.offset) work f = r at g1 g2
    obtain ⟨res, f1⟩ := r
    simp only [] at g1 g2
    simp only [visited_from, pruned_leaves, List.all_append]
    by_cases hall : work.all (node_readable T ctx) = true
    · rw [if_pos hall] at g1
      subst g1
      simp only [hall, Bool.true_and]
      rw [filter_nodes_read (index_node T ctx) (fun n => (query_box rect).intersects n),
        children_nodes_read]
      exact ih _ f1 g2
    · rw [if_neg hall] at g1
      subst g1
      simp only [hall, Bool.false_and, Bool.false_eq_true, if_false]

/-- The descent from two work-lists is the descent from each. -/
theorem descend_append (T : PackedRTree) (numItems nodeSize : Nat) :
    ∀ (level : Nat) (a b : List Nat),
      descend T numItems nodeSize level (a ++ b)
        = descend T numItems nodeSize level a ++ descend T numItems nodeSize level b := by
  intro level
  induction level with
  | zero => intro a b; rfl
  | succ level ih =>
    intro a b
    simp only [descend, List.flatMap_append, ih]

/-- A query that meets a box meets every box that includes it. -/
theorem intersects_of_includes (q a b : NodeItem) (hab : a.includes b = true)
    (hq : q.intersects b = true) : q.intersects a = true := by
  simp only [NodeItem.includes, NodeItem.intersects, Bool.and_eq_true, decide_eq_true_eq]
    at hab hq ⊢
  omega

/-- The children of a node with nested boxes have nested boxes, included in
the box of the node. -/
theorem boxes_nested_children (T : PackedRTree) (ctx : flatgeobuf_ctx) (level o : Nat)
    (h : boxes_nested T ctx (level + 1) o = true) :
    ∀ c ∈ T.children ctx.features_count ctx.index_node_size (level + 1) o,
      (index_node T ctx o).includes (index_node T ctx c) = true ∧
        boxes_nested T ctx level c = true := by
  intro c hc
  rw [boxes_nested, List.all_eq_true] at h
  have := h c hc
  simpa only [Bool.and_eq_true] using this

/-- Below nodes that the query does not meet there is no leaf that it
meets. -/
theorem no_leaf_below_pruned (T : PackedRTree) (ctx : flatgeobuf_ctx) (q : NodeItem) :
    ∀ (level : Nat) (work : List Nat),
      (∀ o ∈ work, boxes_nested T ctx level o = true ∧
        q.intersects (index_node T ctx o) = false) →
      ∀ x ∈ descend T ctx.features_count ctx.index_node_size level work,
        q.intersects (index_node T ctx x) = false := by
  intro level
  induction level with
  | zero => intro work h x hx; exact (h x hx).2
  | succ level ih =>
    intro work h x hx
    rw [descend] at hx
    refine ih _ ?_ x hx
    intro c hc
    rw [List.mem_flatMap] at hc
    obtain ⟨o, ho, hco⟩ := hc
    obtain ⟨hn, hq⟩ := h o ho
    obtain ⟨hinc, hnc⟩ := boxes_nested_children T ctx level o hn c hco
    refine ⟨hnc, ?_⟩
    cases hqc : q.intersects (index_node T ctx c) with
    | false => rfl
    | true =>
      rw [intersects_of_includes q _ _ hinc hqc] at hq
      exact absurd hq (by decide)

/-- With nested boxes, pruning loses no leaf: the traversal emits the leaves
below its work-list that the query meets, in their order. -/
theorem pruned_leaves_eq_filter (T : PackedRTree) (ctx : flatgeobuf_ctx) (rect : rectObj) :
    ∀ (level : Nat) (work : List Nat),
      (∀ o ∈ work, boxes_nested T ctx level o = true) →
      pruned_leaves T ctx rect level work
        = (descend T ctx.features_count ctx.index_node_size level work).filter
            (fun o => (query_box rect).intersects (index_node T ctx o)) := by
  intro level
  induction level with
  | zero => intro work _; rfl
  | succ level ih =>
    intro work hwork
    rw [pruned_leaves, descend]
    rw [ih]
    · clear ih
      induction work with
      | nil => rfl
      | cons o work ihw =>
        have hrest := ihw (fun x hx => hwork x (List.mem_cons_of_mem _ hx))
        have ho := hwork o (List.mem_cons_self _ _)
        rw [List.flatMap_cons, descend_append, List.filter_append, ← hrest]
        by_cases hq : (query_box rect).intersects (index_node T ctx o) = true
        · have hf : List.filter (fun o => (query_box rect).intersects (index_node T ctx o))
              (o :: work) = o :: List.filter
                (fun o => (query_box rect).intersects (index_node T ctx o)) work := by
            simp only [List.filter_cons, hq, if_true]
          rw [hf, List.flatMap_cons, descend_append, List.filter_append]
        · have hf : List.filter (fun o => (query_box rect).intersects (index_node T ctx o))
              (o :: work) = List.filter
                (fun o => (query_box rect).intersects (index_node T ctx o)) work := by
            simp only [List.filter_cons, hq, Bool.false_eq_true, if_false]
          rw [hf]
          have hnil : (descend T ctx.features_count ctx.index_node_size level
              (T.children ctx.features_count ctx.index_node_size (level + 1) o)).filter
              (fun o => (query_box rect).intersects (index_node T ctx o)) = [] := by
            rw [List.filter_eq_nil_iff]
            intro x hx
            have := no_leaf_below_pruned T ctx (query_box rect) level
              (T.children ctx.features_count ctx.index_node_size (level + 1) o)
              (fun c hc => by
                obtain ⟨hinc, hnc⟩ := boxes_nested_children T ctx level o ho c hc
                refine ⟨hnc, ?_⟩
                cases hqc : (query_box rect).intersects (index_node T ctx c) with
                | false => rfl
                | true => exact absurd (intersects_of_includes _ _ _ hinc hqc) hq)
              x hx
            rw [this]
            decide
          rw [hnil, List.nil_append]
    · intro c hc
      rw [List.mem_flatMap] at hc
      obtain ⟨o, ho, hco⟩ := hc
      exact (boxes_nested_children T ctx level o
        (hwork o (List.mem_of_mem_filter ho)) c hco).2

/-- The two outcomes of `flatgeobuf_index_search`: the search routine throws
and the call returns -1 with only the handle changed, or it returns items and
the call returns 0 with the items stored. -/
theorem index_search_cases (S : StreamSearch) (ctx : flatgeobuf_ctx) (rect : rectObj) :
    ((S ctx.features_count ctx.index_node_size (query_box rect) (readNode ctx.offset)
        ctx.file).1 = none ∧
      flatgeobuf_index_search S ctx rect
        = (-1, { ctx with file := (S ctx.features_count ctx.index_node_size (query_box rect)
            (readNode ctx.offset) ctx.file).2 })) ∨
    (∃ items, (S ctx.features_count ctx.index_node_size (query_box rect)
        (readNode ctx.offset) ctx.file).1 = some items ∧
      flatgeobuf_index_search S ctx rect
        = (0, { ctx with
            file := (S ctx.features_count ctx.index_node_size (query_box rect)
              (readNode ctx.offset) ctx.file).2,
            search_result := some items,
            search_result_len := items.length % 4294967296 })) := by
  unfold flatgeobuf_index_search query_box
  simp only []
  generalize S ctx.features_count ctx.index_node_size
    ⟨rect.minx, rect.miny, rect.maxx, rect.maxy, 0⟩ (readNode ctx.offset) ctx.file = r
  obtain ⟨res, f⟩ := r
  cases res with
  | none => exact Or.inl ⟨rfl, rfl⟩
  | some items => exact Or.inr ⟨items, rfl, rfl⟩

/-- The search of the packed index throws exactly when a node it comes to
cannot be read, and finds the items of `pruned_leaves` otherwise. -/
theorem streamSearch_spec (T : PackedRTree) (ctx : flatgeobuf_ctx) (rect : rectObj) :
    (PackedRTree_streamSearch T ctx.features_count ctx.index_node_size (query_box rect)
      (readNode ctx.offset) ctx.file).1
      = (if (visited_nodes T ctx rect).all (node_readable T ctx) = true
         then some ((pruned_leaves T ctx rect (T.height ctx.features_count ctx.index_node_size)
           [T.root ctx.features_count ctx.index_node_size]).map (leaf_item T ctx))
         else none) :=
  search_levels_spec T ctx rect _ _ ctx.file ⟨rfl, rfl, rfl⟩

/-! ## Index search: the claims -/

/-- C21: `flatgeobuf_index_search` leaves `ctx.offset` as it was, whatever the
search routine does; it returns -1 when the search routine throws; when it
returns -1, `ctx.search_result` and `ctx.search_result_len` are what they
were before the call; and with the search of the packed index it returns -1
as soon as one of the nodes that the traversal comes to cannot be read,
because the seek fails or the read is short. -/
theorem index_search_failure_keeps_result (S : StreamSearch) (T : PackedRTree)
    (ctx : flatgeobuf_ctx) (rect : rectObj) :
    (flatgeobuf_index_search S ctx rect).2.offset = ctx.offset ∧
    ((S ctx.features_count ctx.index_node_size (query_box rect) (readNode ctx.offset)
        ctx.file).1 = none → (flatgeobuf_index_search S ctx rect).1 = -1) ∧
    ((flatgeobuf_index_search S ctx rect).1 = -1 →
      (flatgeobuf_index_search S ctx rect).2.search_result = ctx.search_result ∧
      (flatgeobuf_index_search S ctx rect).2.search_result_len = ctx.search_result_len) ∧
    ((∃ o ∈ visited_nodes T ctx rect, node_readable T ctx o = false) →
      (flatgeobuf_index_search (PackedRTree_streamSearch T) ctx rect).1 = -1) := by
  refine ⟨?_, ?_, ?_, ?_⟩
  · rcases index_search_cases S ctx rect with ⟨_, h⟩ | ⟨items, _, h⟩ <;> rw [h]
  · intro hnone
    rcases index_search_cases S ctx rect with ⟨_, h⟩ | ⟨items, hi, _⟩
    · rw [h]
    · rw [hnone] at hi
      exact absurd hi (by simp)
  · intro hs
    rcases index_search_cases S ctx rect with ⟨_, h⟩ | ⟨items, _, h⟩
    · rw [h]
      exact ⟨rfl, rfl⟩
    · rw [h] at hs
      have h0 : (0 : Int) = -1 := hs
      exact absurd h0 (by decide)
  · rintro ⟨o, ho, hr⟩
    have hall : ¬ (visited_nodes T ctx rect).all (node_readable T ctx) = true := by
      intro hall
      rw [List.all_eq_true] at hall
      rw [hall o ho] at hr
      exact absurd hr (by decide)
    have hspec := streamSearch_spec T ctx rect
    rw [if_neg hall] at hspec
    rcases index_search_cases (PackedRTree_streamSearch T) ctx rect with ⟨_, h⟩ | ⟨items, hi, _⟩
    · rw [h]
    · rw [hspec] at hi
      exact absurd hi (by simp)

/-- Witness for C21: on the index cut inside the record of its third leaf the
traversal for `toyQuery` comes to that leaf, and the search returns -1 with
the earlier result `[(7, 7)]` and the offset 2 in place. -/
theorem index_search_failure_keeps_result_witness :
    (∃ o ∈ visited_nodes toyTree ctxCutIndex toyQuery,
      node_readable toyTree ctxCutIndex o = false) ∧
    (flatgeobuf_index_search (PackedRTree_streamSearch toyTree) ctxCutIndex toyQuery).1 = -1 ∧
    (flatgeobuf_index_search (PackedRTree_streamSearch toyTree) ctxCutIndex toyQuery).2.search_result
      = some [⟨7, 7⟩] ∧
    (flatgeobuf_index_search (PackedRTree_streamSearch toyTree) ctxCutIndex
      toyQuery).2.search_result_len = 1 ∧
    (flatgeobuf_index_search (PackedRTree_streamSearch toyTree) ctxCutIndex toyQuery).2.offset
      = 2 :=
  have h := index_search_failure_keeps_result (PackedRTree_streamSearch toyTree) toyTree
    ctxCutIndex toyQuery
  have hbad : ∃ o ∈ visited_nodes toyTree ctxCutIndex toyQuery,
      node_readable toyTree ctxCutIndex o = false := ⟨25, by decide, by decide⟩
  ⟨hbad, h.2.2.2 hbad, (h.2.2.1 (h.2.2.2 hbad)).1, (h.2.2.1 (h.2.2.2 hbad)).2, h.1⟩

/-- Leaves that stand for distinct features have distinct result items. -/
theorem leaf_item_injective (T : PackedRTree) (ctx : flatgeobuf_ctx)
    (hnd : ((index_leaves T ctx).map
      (T.feature_index ctx.features_count ctx.index_node_size)).Nodup) :
    ∀ a ∈ index_leaves T ctx, ∀ b ∈ index_leaves T ctx,
      leaf_item T ctx a = leaf_item T ctx b → a = b := by
  intro a ha b hb hab
  have hidx : T.feature_index ctx.features_count ctx.index_node_size a
      = T.feature_index ctx.features_count ctx.index_node_size b :=
    congrArg flatgeobuf_search_item.index hab
  exact List.inj_on_of_nodup_map hnd ha hb hidx

/-- C22: on a well-formed packed index a successful `flatgeobuf_index_search`
stores the items of the leaves whose box intersects the query rectangle, in
the order of the leaves: the item of each such leaf occurs in the result
exactly once, the item of a leaf whose box does not intersect it does not
occur, and the result holds nothing else. -/
theorem index_search_finds_intersecting_leaves (T : PackedRTree)
    (ctx ctx' : flatgeobuf_ctx) (rect : rectObj) (hwf : well_formed_index T ctx)
    (h : flatgeobuf_index_search (PackedRTree_streamSearch T) ctx rect = (0, ctx')) :
    ∃ found : List flatgeobuf_search_item,
      ctx'.search_result = some found ∧
      ctx'.search_result_len = found.length % 4294967296 ∧
      found = ((index_leaves T ctx).filter
        (fun o => (query_box rect).intersects (index_node T ctx o))).map (leaf_item T ctx) ∧
      (∀ o ∈ index_leaves T ctx,
        found.count (leaf_item T ctx o)
          = if (query_box rect).intersects (index_node T ctx o) = true then 1 else 0) ∧
      (∀ it ∈ found, ∃ o ∈ index_leaves T ctx, it = leaf_item T ctx o) := by
  obtain ⟨hnest, hnd⟩ := hwf
  have hinj := leaf_item_injective T ctx hnd
  have hleaves : (index_leaves T ctx).Nodup := List.Nodup.of_map _ hnd
  have hpruned := pruned_leaves_eq_filter T ctx rect
    (T.height ctx.features_count ctx.index_node_size)
    [T.root ctx.features_count ctx.index_node_size]
    (fun o ho => by rw [List.mem_singleton] at ho; rw [ho]; exact hnest)
  have hspec := streamSearch_spec T ctx rect
  rw [hpruned] at hspec
  rcases index_search_cases (PackedRTree_streamSearch T) ctx rect with ⟨_, h1⟩ | ⟨items, hi, h1⟩
  · rw [h1] at h
    have h0 : (-1 : Int) = 0 := congrArg Prod.fst h
    exact absurd h0 (by decide)
  · rw [h1] at h
    have hctx := congrArg Prod.snd h
    simp only [] at hctx
    rw [hspec] at hi
    split at hi
    · simp only [Option.some.injEq] at hi
      refine ⟨items, ?_, ?_, hi.symm, ?_, ?_⟩
      · rw [← hctx]
      · rw [← hctx]
      · intro o ho
        have hfnd : ((index_leaves T ctx).filter
            (fun o => (query_box rect).intersects (index_node T ctx o))).Nodup :=
          hleaves.filter _
        have hnodup : items.Nodup := by
          rw [← hi]
          exact List.Nodup.map_on
            (fun a ha b hb hab => hinj a (List.mem_of_mem_filter ha) b
              (List.mem_of_mem_filter hb) hab) hfnd
        by_cases hq : (query_box rect).intersects (index_node T ctx o) = true
        · rw [if_pos hq]
          apply List.count_eq_one_of_mem hnodup
          rw [← hi]
          exact List.mem_map_of_mem _ (List.mem_filter.mpr ⟨ho, hq⟩)
        · rw [if_neg hq]
          apply List.count_eq_zero_of_not_mem
          rw [← hi]
          intro hmem
          rw [List.mem_map] at hmem
          obtain ⟨b, hb, hab⟩ := hmem
          rw [List.mem_filter] at hb
          have := hinj b hb.1 o ho hab
          rw [this] at hb
          exact hq hb.2
      · intro it hit
        rw [← hi, List.mem_map] at hit
        obtain ⟨b, hb, hab⟩ := hit
        exact ⟨b, List.mem_of_mem_filter hb, hab.symm⟩
    · exact absurd hi (by simp)

/-- Witness for C22: the index of `ctxToyIndex` is well formed, the search for
`toyQuery` returns 0, and the result that replaces `[(7, 7)]` holds the
second and the third leaf, whose boxes `[3,4]x[3,4]` and `[5,6]x[5,6]` touch
the query. -/
theorem index_search_finds_intersecting_leaves_witness :
    well_formed_index toyTree ctxToyIndex ∧
    (flatgeobuf_index_search (PackedRTree_streamSearch toyTree) ctxToyIndex toyQuery).1 = 0 ∧
    index_leaves toyTree ctxToyIndex = [15, 20, 25, 30] ∧
    (flatgeobuf_index_search (PackedRTree_streamSearch toyTree) ctxToyIndex
      toyQuery).2.search_result = some [⟨110, 1⟩, ⟨120, 2⟩] ∧
    ∃ found : List flatgeobuf_search_item,
      (flatgeobuf_index_search (PackedRTree_streamSearch toyTree) ctxToyIndex
        toyQuery).2.search_result = some found ∧
      (flatgeobuf_index_search (PackedRTree_streamSearch toyTree) ctxToyIndex
        toyQuery).2.search_result_len = found.length % 4294967296 ∧
      found = ((index_leaves toyTree ctxToyIndex).filter
        (fun o => (query_box toyQuery).intersects (index_node toyTree ctxToyIndex o))).map
          (leaf_item toyTree ctxToyIndex) ∧
      (∀ o ∈ index_leaves toyTree ctxToyIndex,
        found.count (leaf_item toyTree ctxToyIndex o)
          = if (query_box toyQuery).intersects (index_node toyTree ctxToyIndex o) = true
            then 1 else 0) ∧
      (∀ it ∈ found, ∃ o ∈ index_leaves toyTree ctxToyIndex,
        it = leaf_item toyTree ctxToyIndex o) :=
  ⟨by decide, by decide, by decide, by decide,
    index_search_finds_intersecting_leaves toyTree ctxToyIndex
      (flatgeobuf_index_search (PackedRTree_streamSearch toyTree) ctxToyIndex toyQuery).2
      toyQuery (by decide) (Prod.ext (by decide) rfl)⟩

end FlatGeobuf

namespace OgcApi

/-! ## Limit of a request: the claims -/

/-- The macro `MS_MIN` yields the minimum. -/
theorem MS_MIN_eq_min (a b : Int) : MS_MIN a b = min a b := by
  unfold MS_MIN
  split
  · rw [min_eq_left (le_of_lt (by assumption))]
  · rw [min_eq_right (not_lt.mp (by assumption))]

/-- C23 as stated fails: for the request `?f=json&limit=abc`, whose `limit`
does not parse as an integer, `getLimit` returns `MS_FAILURE` and leaves in
`*limit` the value 0 it found there, which is no limit between 1 and 10000. -/
theorem getLimit_fails_on_unparsable_limit :
    getRequestParameter requestBadLimit "limit" = some "abc" ∧
    toyStringToInt "abc" 0 10 = (Status.MS_FAILURE, 0) ∧
    getLimit toyStringToInt requestBadLimit 0 = (Status.MS_FAILURE, 0) := by
  decide

/-- Function `getLimit` on a request without `limit`. -/
theorem getLimit_missing (msStringToInt : String → Int → Nat → Status × Int)
    (request : cgiRequestObj) (limit : Int)
    (hp : getRequestParameter request "limit" = none) :
    getLimit msStringToInt request limit = (Status.MS_SUCCESS, 10) := by
  unfold getLimit
  rw [hp]
  rfl

/-- Function `getLimit` on a request with an empty `limit`. -/
theorem getLimit_empty (msStringToInt : String → Int → Nat → Status × Int)
    (request : cgiRequestObj) (limit : Int) (p : String)
    (hp : getRequestParameter request "limit" = some p) (hlen : p.length = 0) :
    getLimit msStringToInt request limit = (Status.MS_SUCCESS, 10) := by
  unfold getLimit
  rw [hp]
  simp only [hlen, if_true]
  rfl

/-- Function `getLimit` on a request with a `limit` that is not empty. -/
theorem getLimit_parsed (msStringToInt : String → Int → Nat → Status × Int)
    (request : cgiRequestObj) (limit : Int) (p : String)
    (hp : getRequestParameter request "limit" = some p) (hlen : p.length ≠ 0) :
    getLimit msStringToInt request limit
      = (if (msStringToInt p limit 10).1 ≠ Status.MS_SUCCESS
         then (Status.MS_FAILURE, (msStringToInt p limit 10).2)
         else if (msStringToInt p limit 10).2 ≤ 0 then (Status.MS_SUCCESS, 10)
         else (Status.MS_SUCCESS, min (msStringToInt p limit 10).2 10000)) := by
  unfold getLimit
  rw [hp]
  simp only [hlen, if_false]
  generalize msStringToInt p limit 10 = r
  obtain ⟨status, v⟩ := r
  simp only [OGCAPI_LIMIT_DEFAULT, OGCAPI_LIMIT_MAXIMUM, MS_MIN_eq_min]

/-- C23, amended: whenever `getLimit` returns `MS_SUCCESS` the limit lies
between 1 and 10000; it is 10 when `limit` is missing or empty or parses to a
value that is not positive, and `min(v, 10000)` when it parses to `v > 0`;
when `limit` is present, not empty and does not parse, `getLimit` returns
`MS_FAILURE`. -/
theorem getLimit_valid_when_success (msStringToInt : String → Int → Nat → Status × Int)
    (request : cgiRequestObj) (limit : Int) :
    ((getLimit msStringToInt request limit).1 = Status.MS_SUCCESS →
      1 ≤ (getLimit msStringToInt request limit).2 ∧
      (getLimit msStringToInt request limit).2 ≤ 10000) ∧
    (getRequestParameter request "limit" = none →
      getLimit msStringToInt request limit = (Status.MS_SUCCESS, 10)) ∧
    (∀ p : String, getRequestParameter request "limit" = some p →
      (p.length = 0 → getLimit msStringToInt request limit = (Status.MS_SUCCESS, 10)) ∧
      (p.length ≠ 0 → (msStringToInt p limit 10).1 = Status.MS_SUCCESS →
        (msStringToInt p limit 10).2 ≤ 0 →
        getLimit msStringToInt request limit = (Status.MS_SUCCESS, 10)) ∧
      (p.length ≠ 0 → (msStringToInt p limit 10).1 = Status.MS_SUCCESS →
        0 < (msStringToInt p limit 10).2 →
        getLimit msStringToInt request limit
          = (Status.MS_SUCCESS, min (msStringToInt p limit 10).2 10000)) ∧
      (p.length ≠ 0 → (msStringToInt p limit 10).1 ≠ Status.MS_SUCCESS →
        (getLimit msStringToInt request limit).1 = Status.MS_FAILURE)) := by
  refine ⟨?_, getLimit_missing msStringToInt request limit, fun p hp => ⟨?_, ?_, ?_, ?_⟩⟩
  · intro hs
    cases hp : getRequestParameter request "limit" with
    | none =>
      rw [getLimit_missing msStringToInt request limit hp]
      decide
    | some p =>
      by_cases hlen : p.length = 0
      · rw [getLimit_empty msStringToInt request limit p hp hlen]
        decide
      · rw [getLimit_parsed msStringToInt request limit p hp hlen] at hs ⊢
        split at hs
        · have hf : Status.MS_FAILURE = Status.MS_SUCCESS := hs
          exact absurd hf (by decide)
        · rename_i hst
          rw [if_neg hst]
          split
          · decide
          · rename_i hv
            exact ⟨le_min (by omega) (by decide), min_le_right _ _⟩
  · exact getLimit_empty msStringToInt request limit p hp
  · intro hlen hst hv
    rw [getLimit_parsed msStringToInt request limit p hp hlen, if_neg (not_not.mpr hst),
      if_pos hv]
  · intro hlen hst hv
    rw [getLimit_parsed msStringToInt request limit p hp hlen, if_neg (not_not.mpr hst),
      if_neg (not_le.mpr hv)]
  · intro hlen hst
    rw [getLimit_parsed msStringToInt request limit p hp hlen, if_pos hst]

/-- Witness for C23, amended: the request `?f=json&limit=20000` parses to
20000; `getLimit` returns `MS_SUCCESS` and the limit 10000. -/
theorem getLimit_valid_when_success_witness :
    getRequestParameter requestBigLimit "limit" = some "20000" ∧
    toyStringToInt "20000" 0 10 = (Status.MS_SUCCESS, 20000) ∧
    getLimit toyStringToInt requestBigLimit 0 = (Status.MS_SUCCESS, 10000) ∧
    1 ≤ (getLimit toyStringToInt requestBigLimit 0).2 ∧
    (getLimit toyStringToInt requestBigLimit 0).2 ≤ 10000 :=
  have h := getLimit_valid_when_success toyStringToInt requestBigLimit 0
  ⟨by decide, by decide,
    ((h.2.2 "20000" (by decide)).2.2.1 (by decide) (by decide) (by decide)),
    (h.1 (by decide)).1, (h.1 (by decide)).2⟩

/-! ## Feature geometry: the claims -/

/-- C24 (fails on the code): the polygon shape `holeAndIsland` has the outer
rings 0 and 2, and ring 1 is the inner ring of ring 0.  The `MultiPolygon`
that `getFeatureGeometry` returns holds, for ring 0 and for ring 2 alike, the
polygon made of the rings 0 and 2: the hole is in neither, and each holds the
other outer ring.  The claim asks for the polygon of the rings 0 and 1 and
the polygon of ring 2. -/
theorem getFeatureGeometry_joins_outer_rings :
    holeAndIslandPrimitives.msGetOuterList holeAndIsland = some [true, false, true] ∧
    holeAndIslandPrimitives.msGetInnerList holeAndIsland 0 [true, false, true]
      = some [false, true, false] ∧
    holeAndIslandPrimitives.msGetInnerList holeAndIsland 2 [true, false, true]
      = some [false, false, false] ∧
    getFeatureGeometry holeAndIslandPrimitives (some holeAndIsland)
      = Except.ok (some ⟨GeometryType.MultiPolygon, Coordinates.polygons
          [[part holeAndIslandPrimitives ring0, part holeAndIslandPrimitives ring2],
           [part holeAndIslandPrimitives ring0, part holeAndIslandPrimitives ring2]]⟩) ∧
    [[part holeAndIslandPrimitives ring0, part holeAndIslandPrimitives ring2],
     [part holeAndIslandPrimitives ring0, part holeAndIslandPrimitives ring2]]
      ≠ [[part holeAndIslandPrimitives ring0, part holeAndIslandPrimitives ring1],
         [part holeAndIslandPrimitives ring2]] :=
  ⟨rfl, rfl, rfl, rfl, by decide⟩

end OgcApi
